import Mathlib

/-!
# Verification of the Spectra IPC client core

Shallow embedding of the wire-protocol runtime of the Spectra plotting
client (`src/python/spectra/`): the TLV payload codec and header codec
(`_codec.py`, `_protocol.py`), the framing transport (`_transport.py`),
the request/response correlation loop of `Session._request`
(`_session.py`), the shared-memory blob store (`_blob.py`) and the
chunked data transfer (`_series.py`).

Modelling conventions:
* bytes are `Nat` values (the embedding of `bytes` is `List Nat`; every
  byte produced by the encoders is `< 256` by construction);
* Python `int` is `Int` where signedness matters (the TLV `put_*`
  masking) and `Nat` elsewhere;
* Python floats only ever cross the codec as their IEEE-754 bit
  patterns (`struct.pack`/`unpack` pairs); floats are therefore
  represented by those bit patterns (`Nat`), which makes the
  "bit-identical" round-trip statements exact;
* strings cross the codec as their UTF-8 encodings; they are
  represented by those byte sequences; shared-memory segment names are
  likewise opaque identifiers and are represented by `Nat` ids;
* monotonic timestamps (`time.monotonic()`) are represented by `Int`
  (only their differences are ever compared against the TTL);
* exceptions become explicit result constructors; exception message
  strings are elided (no claim mentions them);
* unbounded `while` loops over a decoder are given explicit fuel
  `data.length + 1`, an upper bound on the number of TLV fields any
  buffer can hold (each field occupies at least 5 bytes).
-/

namespace Spectra

/-! ## Protocol constants (`_protocol.py`) -/

def MAGIC0 : Nat := 0x53
def MAGIC1 : Nat := 0x50
def HEADER_SIZE : Nat := 40
def MAX_PAYLOAD_SIZE : Nat := 256 * 1024 * 1024
def CHUNK_SIZE : Nat := 128 * 1024 * 1024

def RESP_OK : Nat := 0x0010
def RESP_ERR : Nat := 0x0011
def ANIM_TICK : Nat := 0x0560

def TAG_REQUEST_ID : Nat := 0x30
def TAG_ERROR_CODE : Nat := 0x31
def TAG_ERROR_MESSAGE : Nat := 0x32
def TAG_FIGURE_ID : Nat := 0x40
def TAG_SERIES_INDEX : Nat := 0x82
def TAG_DTYPE : Nat := 0xA3
def TAG_BLOB_INLINE : Nat := 0xB0
def TAG_CHUNK_INDEX : Nat := 0xB3
def TAG_CHUNK_COUNT : Nat := 0xB4
def TAG_TOTAL_COUNT : Nat := 0xB5

/-! ## Little-endian byte encodings (`struct.pack`/`unpack` with `<`) -/

/-- `struct.pack("<H", n)` for `n < 2^16`; for larger `n` this encodes
`n % 2^16`, matching the `& 0xFFFF` masking done by every caller. -/
def le16 (n : Nat) : List Nat := [n % 256, n / 256 % 256]

/-- `struct.pack("<I", n)`, encoding `n % 2^32`. -/
def le32 (n : Nat) : List Nat :=
  [n % 256, n / 256 % 256, n / 65536 % 256, n / 16777216 % 256]

/-- `struct.pack("<Q", n)`, encoding `n % 2^64`. -/
def le64 (n : Nat) : List Nat :=
  [n % 256, n / 256 % 256, n / 65536 % 256, n / 16777216 % 256,
   n / 4294967296 % 256, n / 1099511627776 % 256,
   n / 281474976710656 % 256, n / 72057594037927936 % 256]

/-- Value of the first two bytes of a buffer, little-endian
(`struct.unpack_from("<H", ...)`). Missing bytes read as 0. -/
def val16 (l : List Nat) : Nat := l.getD 0 0 + 256 * l.getD 1 0

/-- Value of the first four bytes of a buffer, little-endian. -/
def val32 (l : List Nat) : Nat :=
  l.getD 0 0 + 256 * l.getD 1 0 + 65536 * l.getD 2 0 + 16777216 * l.getD 3 0

/-- Value of the first eight bytes of a buffer, little-endian. -/
def val64 (l : List Nat) : Nat :=
  l.getD 0 0 + 256 * l.getD 1 0 + 65536 * l.getD 2 0 + 16777216 * l.getD 3 0
  + 4294967296 * l.getD 4 0 + 1099511627776 * l.getD 5 0
  + 281474976710656 * l.getD 6 0 + 72057594037927936 * l.getD 7 0

/-- `struct.unpack_from("<H", data, o)`. -/
def rd16 (data : List Nat) (o : Nat) : Nat := val16 (data.drop o)

/-- `struct.unpack_from("<I", data, o)`. -/
def rd32 (data : List Nat) (o : Nat) : Nat := val32 (data.drop o)

/-- `struct.unpack_from("<Q", data, o)`. -/
def rd64 (data : List Nat) (o : Nat) : Nat := val64 (data.drop o)

/-! ## TLV encoder (`_codec.py`, class `PayloadEncoder`)

Each `put_*` appends `tag & 0xFF`, a 32-bit little-endian length, and
the value bytes to the internal buffer. Integer values are Python
ints, hence `Int`, masked exactly as the source does. -/

/-- `val & 0xFFFF` on a Python int (equals the Euclidean remainder). -/
def mask16 (v : Int) : Nat := (v % 65536).toNat

/-- `val & 0xFFFFFFFF` on a Python int. -/
def mask32 (v : Int) : Nat := (v % 4294967296).toNat

/-- `val & 0xFFFFFFFFFFFFFFFF` on a Python int. -/
def mask64 (v : Int) : Nat := (v % 18446744073709551616).toNat

/-- One encoded TLV field: `[tag & 0xFF] [len u32 LE] [value]`. -/
def encField (tag : Nat) (v : List Nat) : List Nat :=
  (tag % 256) :: (le32 v.length ++ v)

/-- A whole payload built from a list of `(tag, value)` fields. -/
def encFields (fs : List (Nat × List Nat)) : List Nat :=
  (fs.map fun f => encField f.1 f.2).flatten

structure PayloadEncoder where
  buf : List Nat
deriving DecidableEq

def PayloadEncoder.empty : PayloadEncoder := ⟨[]⟩

def PayloadEncoder.put_u16 (e : PayloadEncoder) (tag : Nat) (val : Int) : PayloadEncoder :=
  ⟨e.buf ++ encField tag (le16 (mask16 val))⟩

def PayloadEncoder.put_u32 (e : PayloadEncoder) (tag : Nat) (val : Int) : PayloadEncoder :=
  ⟨e.buf ++ encField tag (le32 (mask32 val))⟩

def PayloadEncoder.put_u64 (e : PayloadEncoder) (tag : Nat) (val : Int) : PayloadEncoder :=
  ⟨e.buf ++ encField tag (le64 (mask64 val))⟩

/-- `put_string`; the argument is the string's UTF-8 byte sequence. -/
def PayloadEncoder.put_string (e : PayloadEncoder) (tag : Nat) (s : List Nat) : PayloadEncoder :=
  ⟨e.buf ++ encField tag s⟩

/-- `put_float`; the argument is the 32-bit IEEE-754 pattern that
`struct.unpack("<I", struct.pack("<f", val))` yields, always `< 2^32`. -/
def PayloadEncoder.put_float (e : PayloadEncoder) (tag : Nat) (bits : Nat) : PayloadEncoder :=
  e.put_u32 tag (Int.ofNat bits)

/-- `put_double`; the argument is the 64-bit IEEE-754 pattern. -/
def PayloadEncoder.put_double (e : PayloadEncoder) (tag : Nat) (bits : Nat) : PayloadEncoder :=
  e.put_u64 tag (Int.ofNat bits)

def PayloadEncoder.put_bool (e : PayloadEncoder) (tag : Nat) (val : Bool) : PayloadEncoder :=
  e.put_u16 tag (if val then 1 else 0)

def PayloadEncoder.put_blob (e : PayloadEncoder) (tag : Nat) (data : List Nat) : PayloadEncoder :=
  ⟨e.buf ++ encField tag data⟩

/-- `put_float_array`: a blob whose content is
`[count u32][count × 4-byte float]`; elements are float32 bit patterns. -/
def PayloadEncoder.put_float_array (e : PayloadEncoder) (tag : Nat) (arr : List Nat) : PayloadEncoder :=
  e.put_blob tag (le32 arr.length ++ (arr.map le32).flatten)

def PayloadEncoder.take (e : PayloadEncoder) : List Nat := e.buf

/-! ## TLV decoder (`_codec.py`, class `PayloadDecoder`) -/

structure PayloadDecoder where
  data : List Nat
  pos : Nat
  tag : Nat
  len : Nat
  valOffset : Nat
deriving DecidableEq

def PayloadDecoder.init (data : List Nat) : PayloadDecoder :=
  ⟨data, 0, 0, 0, 0⟩

/-- `PayloadDecoder.next`. Mirrors the source exactly: `tag`, `len` and
`_val_offset` are assigned before the value-bounds check, and the
cursor advances only on success. -/
def PayloadDecoder.next (d : PayloadDecoder) : Bool × PayloadDecoder :=
  if d.data.length < d.pos + 5 then (false, d)
  else if d.data.length < d.pos + 5 + rd32 d.data (d.pos + 1) then
    (false, { d with tag := d.data.getD d.pos 0,
                     len := rd32 d.data (d.pos + 1), valOffset := d.pos + 5 })
  else
    (true, { data := d.data, pos := d.pos + 5 + rd32 d.data (d.pos + 1),
             tag := d.data.getD d.pos 0,
             len := rd32 d.data (d.pos + 1), valOffset := d.pos + 5 })

def PayloadDecoder.as_u16 (d : PayloadDecoder) : Nat :=
  if d.len < 2 then 0 else rd16 d.data d.valOffset

def PayloadDecoder.as_u32 (d : PayloadDecoder) : Nat :=
  if d.len < 4 then 0 else rd32 d.data d.valOffset

def PayloadDecoder.as_u64 (d : PayloadDecoder) : Nat :=
  if d.len < 8 then 0 else rd64 d.data d.valOffset

/-- `as_string` returns the field's bytes; the Python source decodes
them as UTF-8 with `errors="replace"`, the identity on the valid UTF-8
sequences that `put_string` produces. -/
def PayloadDecoder.as_string (d : PayloadDecoder) : List Nat :=
  (d.data.drop d.valOffset).take d.len

def PayloadDecoder.as_blob (d : PayloadDecoder) : List Nat :=
  (d.data.drop d.valOffset).take d.len

/-- `as_float`: the 32-bit pattern round-trips through
`pack("<I", ·)`/`unpack("<f", ·)` unchanged, so the model keeps bits. -/
def PayloadDecoder.as_float (d : PayloadDecoder) : Nat := d.as_u32

def PayloadDecoder.as_double (d : PayloadDecoder) : Nat := d.as_u64

def PayloadDecoder.as_bool (d : PayloadDecoder) : Bool := d.as_u16 != 0

def PayloadDecoder.as_float_array (d : PayloadDecoder) : List Nat :=
  let raw := d.as_blob
  if raw.length < 4 then []
  else
    let count := val32 raw
    if raw.length < 4 + count * 4 then []
    else (List.range count).map fun i => val32 (raw.drop (4 + 4 * i))

/-- The decoder state after a successful `next` that consumed the field
`(t, v)` preceded by the already-consumed bytes `A`. -/
def fieldState (A : List Nat) (t : Nat) (v B : List Nat) : PayloadDecoder :=
  ⟨A ++ encField t v ++ B, A.length + 5 + v.length, t % 256, v.length, A.length + 5⟩

/-! ## TLV scanning loops

Every decoding convenience function in `_codec.py` is a
`while dec.next():` loop; the model gives each loop fuel
`data.length + 1`, which exceeds the greatest possible number of
iterations (every iteration advances the cursor by at least 5). -/

/-- A consumer scanning for the first field with a given tag
(the pattern of `decode_blob_release` and of `Session.reconnect`'s
snapshot walk): repeated `next()` returning the decoder positioned at
the first match. -/
def findTagGo : Nat → PayloadDecoder → Nat → Option PayloadDecoder
  | 0, _, _ => none
  | fuel + 1, d, tag =>
    match d.next with
    | (true, d') => if d'.tag = tag then some d' else findTagGo fuel d' tag
    | (false, _) => none

def findTag (data : List Nat) (tag : Nat) : Option PayloadDecoder :=
  findTagGo (data.length + 1) (PayloadDecoder.init data) tag

/-- Reference lookup on a field list: the first field whose encoded tag
byte (`tag & 0xFF`) equals `tag`. -/
def lookupTag : List (Nat × List Nat) → Nat → Option (Nat × List Nat)
  | [], _ => none
  | f :: fs, tag => if f.1 % 256 = tag then some f else lookupTag fs tag

/-- `decode_resp_err` loop body state: `(request_id, code, message)`. -/
def decodeRespErrGo : Nat → PayloadDecoder → Nat × Nat × List Nat → Nat × Nat × List Nat
  | 0, _, acc => acc
  | fuel + 1, d, acc =>
    match d.next with
    | (true, d') =>
      decodeRespErrGo fuel d'
        (if d'.tag = TAG_REQUEST_ID then (d'.as_u64, acc.2.1, acc.2.2)
         else if d'.tag = TAG_ERROR_CODE then (acc.1, d'.as_u32, acc.2.2)
         else if d'.tag = TAG_ERROR_MESSAGE then (acc.1, acc.2.1, d'.as_string)
         else acc)
    | (false, _) => acc

/-- `decode_resp_err(data) -> (request_id, code, message)`. -/
def decode_resp_err (data : List Nat) : Nat × Nat × List Nat :=
  decodeRespErrGo (data.length + 1) (PayloadDecoder.init data) (0, 0, [])

def decodeRespOkGo : Nat → PayloadDecoder → Nat → Nat
  | 0, _, acc => acc
  | fuel + 1, d, acc =>
    match d.next with
    | (true, d') =>
      decodeRespOkGo fuel d' (if d'.tag = TAG_REQUEST_ID then d'.as_u64 else acc)
    | (false, _) => acc

/-- `decode_resp_ok(data) -> request_id`. -/
def decode_resp_ok (data : List Nat) : Nat :=
  decodeRespOkGo (data.length + 1) (PayloadDecoder.init data) 0

/-! ## Wire header codec (`encode_header` / `decode_header`) -/

structure Header where
  msgType : Nat
  payload_len : Nat
  seq : Nat
  request_id : Nat
  session_id : Nat
  window_id : Nat
deriving DecidableEq

/-- `struct.pack("<2sHI QQ QQ", MAGIC, ...)`: 40 bytes. -/
def encode_header (msgType payload_len seq request_id session_id window_id : Nat) : List Nat :=
  [MAGIC0, MAGIC1] ++ le16 msgType ++ le32 payload_len
    ++ le64 seq ++ le64 request_id ++ le64 session_id ++ le64 window_id

/-- `decode_header`: `None` on fewer than 40 bytes or a magic
mismatch; otherwise the six fields. No `payload_len` validation. -/
def decode_header (data : List Nat) : Option Header :=
  if data.length < HEADER_SIZE then none
  else if data.getD 0 0 = MAGIC0 ∧ data.getD 1 0 = MAGIC1 then
    some ⟨rd16 data 2, rd32 data 4, rd64 data 8, rd64 data 16, rd64 data 24, rd64 data 32⟩
  else none

/-! ## Transport (`_transport.py`)

The incoming byte stream is the finite list of bytes the peer wrote
before closing its end; `recv`/`_recvall` consume a front segment of
it. Exceptions become `Except` errors (messages elided). -/

inductive TransportError where
  | connectionError
  | protocolError
deriving DecidableEq

/-- `Transport._recvall(n)`: `none` inside `ok` is the clean-close
signal (zero bytes available); ending mid-read is a `ConnectionError`. -/
def recvall (stream : List Nat) (n : Nat) :
    Except TransportError (Option (List Nat × List Nat)) :=
  if n ≤ stream.length then .ok (some (stream.take n, stream.drop n))
  else if stream.length = 0 then .ok none
  else .error .connectionError

/-- `Transport.recv()`: read 40 header bytes, decode and validate,
then read exactly `payload_len` payload bytes. Returns the decoded
header, the payload, and the unread remainder of the stream. -/
def recv (stream : List Nat) :
    Except TransportError (Option (Header × List Nat × List Nat)) :=
  match recvall stream HEADER_SIZE with
  | .error e => .error e
  | .ok none => .ok none
  | .ok (some (headerBytes, rest)) =>
    match decode_header headerBytes with
    | none => .error .protocolError
    | some hdr =>
      if MAX_PAYLOAD_SIZE < hdr.payload_len then .error .protocolError
      else if 0 < hdr.payload_len then
        match recvall rest hdr.payload_len with
        | .error e => .error e
        | .ok none => .error .connectionError
        | .ok (some (payload, rest2)) => .ok (some (hdr, payload, rest2))
      else .ok (some (hdr, [], rest))

/-! ## Session request loop (`Session._request`, `_session.py`)

A message is abstracted to the header fields the loop inspects plus
its payload bytes. The transport's successive `recv()` results are the
elements of a list; exhausting the list models the peer closing the
connection (`recv` returning `None`). The loop classifies each
message: a `RESP_ERR` whose embedded request id matches (or is 0)
raises `BackendError`; a header `request_id` match or a `RESP_OK`
embedded-id match is the response; anything else goes to
`_handle_event` exactly once, in arrival order. -/

structure Msg where
  msgType : Nat
  requestId : Nat
  payload : List Nat
deriving DecidableEq

inductive ReqOutcome where
  | response (m : Msg) (events : List Msg)
  | backendError (code : Nat) (message : List Nat) (events : List Msg)
  | connectionClosed (events : List Msg)
deriving DecidableEq

/-- Record one `_handle_event(m)` dispatch before the loop continues. -/
def ReqOutcome.withEvent (m : Msg) : ReqOutcome → ReqOutcome
  | .response r evs => .response r (m :: evs)
  | .backendError c s evs => .backendError c s (m :: evs)
  | .connectionClosed evs => .connectionClosed (m :: evs)

/-- The receive loop of `Session._request` after the request with id
`reqId` has been sent, reading successive messages from the wire. -/
def runRequest (reqId : Nat) : List Msg → ReqOutcome
  | [] => .connectionClosed []
  | m :: rest =>
    if m.msgType = RESP_ERR ∧
        ((decode_resp_err m.payload).1 = reqId ∨ (decode_resp_err m.payload).1 = 0) then
      .backendError (decode_resp_err m.payload).2.1 (decode_resp_err m.payload).2.2 []
    else if m.requestId = reqId then .response m []
    else if m.msgType = RESP_OK ∧ decode_resp_ok m.payload = reqId then .response m []
    else (runRequest reqId rest).withEvent m

/-- A `RESP_ERR` the loop attributes to request `reqId`. -/
def matchesErr (reqId : Nat) (m : Msg) : Prop :=
  m.msgType = RESP_ERR ∧
    ((decode_resp_err m.payload).1 = reqId ∨ (decode_resp_err m.payload).1 = 0)

/-- A message the loop returns as the response to request `reqId`. -/
def matchesResp (reqId : Nat) (m : Msg) : Prop :=
  m.requestId = reqId ∨ (m.msgType = RESP_OK ∧ decode_resp_ok m.payload = reqId)

/-- A message unrelated to request `reqId`: dispatched to
`_handle_event` and skipped by the correlation loop. -/
def unrelated (reqId : Nat) (m : Msg) : Prop :=
  ¬ matchesErr reqId m ∧ ¬ matchesResp reqId m

instance (reqId : Nat) (m : Msg) : Decidable (matchesErr reqId m) := by
  unfold matchesErr; infer_instance

instance (reqId : Nat) (m : Msg) : Decidable (matchesResp reqId m) := by
  unfold matchesResp; infer_instance

instance (reqId : Nat) (m : Msg) : Decidable (unrelated reqId m) := by
  unfold unrelated; infer_instance

/-! ## BlobStore (`_blob.py`)

Segment names are opaque ids (`Nat`). The `_shm` handle is abstracted
to the flag `hasShm`; `release` reports whether it unlinked the
OS-level segment, so idempotence is visible in the model. The Python
dict of tracked refs is an association list with unique keys; `pop`
and `del` become key filtering, which agrees with dict semantics on
every unique-key state. -/

def BLOB_TTL : Int := 60

structure BlobRef where
  name : Nat
  size : Nat
  created_at : Int
  hasShm : Bool
  released : Bool
deriving DecidableEq

/-- `BlobRef.is_expired` at monotonic time `now`. -/
def BlobRef.is_expired (r : BlobRef) (now : Int) : Bool :=
  BLOB_TTL < now - r.created_at

/-- `BlobRef.release()`: idempotent unlink. The `Bool` reports whether
the shared-memory segment was unlinked by this call. -/
def BlobRef.release (r : BlobRef) : BlobRef × Bool :=
  if r.released then (r, false)
  else ({ r with released := true, hasShm := false }, r.hasShm)

structure BlobStore where
  blobs : List (Nat × BlobRef)
deriving DecidableEq

def BlobStore.empty : BlobStore := ⟨[]⟩

/-- `BlobStore.create_blob` at time `now` (the successful path:
a fresh segment is registered with `created_at = now`). -/
def BlobStore.create_blob (s : BlobStore) (name size : Nat) (now : Int) : BlobStore :=
  ⟨s.blobs ++ [(name, ⟨name, size, now, true, false⟩)]⟩

/-- `BlobStore.release_blob(name)`: pop the ref if tracked and release
it. The `Bool` reports whether an OS unlink happened. -/
def BlobStore.release_blob (s : BlobStore) (name : Nat) : BlobStore × Bool :=
  match s.blobs.lookup name with
  | none => (s, false)
  | some ref => (⟨s.blobs.filter fun e => e.1 ≠ name⟩, (ref.release).2)

/-- `BlobStore.cleanup_expired()` at time `now`: drop every expired
ref and return how many were reclaimed. -/
def BlobStore.cleanup_expired (s : BlobStore) (now : Int) : BlobStore × Nat :=
  (⟨s.blobs.filter fun e => !e.2.is_expired now⟩,
   (s.blobs.filter fun e => e.2.is_expired now).length)

def BlobStore.active_count (s : BlobStore) : Nat := s.blobs.length

/-! ## Chunked transfer (`_series.py` and `_codec.py`) -/

/-- `encode_req_set_data_raw`. -/
def encode_req_set_data_raw (figure_id series_index : Nat) (raw_bytes : List Nat)
    (count dtype : Nat) : List Nat :=
  ((((PayloadEncoder.empty.put_u64 TAG_FIGURE_ID (Int.ofNat figure_id)).put_u32
      TAG_SERIES_INDEX (Int.ofNat series_index)).put_u16
      TAG_DTYPE (Int.ofNat dtype)).put_blob
      TAG_BLOB_INLINE (le32 count ++ raw_bytes)).take

/-- `encode_req_set_data_chunked`. -/
def encode_req_set_data_chunked (figure_id series_index : Nat) (raw_bytes : List Nat)
    (count chunk_index chunk_count total_count dtype : Nat) : List Nat :=
  (((((((PayloadEncoder.empty.put_u64 TAG_FIGURE_ID (Int.ofNat figure_id)).put_u32
      TAG_SERIES_INDEX (Int.ofNat series_index)).put_u16
      TAG_DTYPE (Int.ofNat dtype)).put_u32
      TAG_CHUNK_INDEX (Int.ofNat chunk_index)).put_u32
      TAG_CHUNK_COUNT (Int.ofNat chunk_count)).put_u32
      TAG_TOTAL_COUNT (Int.ofNat total_count)).put_blob
      TAG_BLOB_INLINE (le32 count ++ raw_bytes)).take

/-- `math.ceil(len / CHUNK_SIZE)` of `Series._send_chunked`. The float
division is exact at every size a `u32`-framed payload can reach, so
the Nat ceiling division is a faithful model. -/
def numChunks (len : Nat) : Nat := (len + CHUNK_SIZE - 1) / CHUNK_SIZE

/-- The `i`-th byte range `raw_bytes[start:end]` of `_send_chunked`. -/
def chunkRange (raw : List Nat) (i : Nat) : List Nat :=
  (raw.drop (i * CHUNK_SIZE)).take CHUNK_SIZE

/-- The sequence of payloads `Series._send_chunked` passes to
`Session._request`, in send order. -/
def sendChunkedPayloads (figure_id series_index : Nat) (raw : List Nat)
    (total_count : Nat) : List (List Nat) :=
  (List.range (numChunks raw.length)).map fun i =>
    encode_req_set_data_chunked figure_id series_index (chunkRange raw i)
      ((chunkRange raw i).length / 4) i (numChunks raw.length) total_count 0

/-- The payloads `Series.set_data` sends on its numpy fast path:
chunked only above the `CHUNK_SIZE` ceiling. -/
def setDataPayloads (figure_id series_index : Nat) (raw : List Nat)
    (count : Nat) : List (List Nat) :=
  if CHUNK_SIZE < raw.length then
    sendChunkedPayloads figure_id series_index raw count
  else
    [encode_req_set_data_raw figure_id series_index raw count 0]

/-! ## Byte-level helper lemmas -/

theorem le16_length (n : Nat) : (le16 n).length = 2 := rfl

theorem le32_length (n : Nat) : (le32 n).length = 4 := rfl

theorem le64_length (n : Nat) : (le64 n).length = 8 := rfl

theorem val16_le16 (n : Nat) (r : List Nat) : val16 (le16 n ++ r) = n % 65536 := by
  simp only [le16, val16, List.cons_append, List.getD_cons_zero, List.getD_cons_succ]
  omega

theorem val32_le32 (n : Nat) (r : List Nat) : val32 (le32 n ++ r) = n % 4294967296 := by
  simp only [le32, val32, List.cons_append, List.getD_cons_zero, List.getD_cons_succ]
  omega

theorem val64_le64 (n : Nat) (r : List Nat) :
    val64 (le64 n ++ r) = n % 18446744073709551616 := by
  simp only [le64, val64, List.cons_append, List.getD_cons_zero, List.getD_cons_succ]
  omega

theorem drop_at_length (A x : List Nat) : (A ++ x).drop A.length = x :=
  List.drop_left A x

theorem drop_at_length_add (A x : List Nat) (k : Nat) :
    (A ++ x).drop (A.length + k) = x.drop k := by
  have h := List.drop_drop k A.length (A ++ x)
  rw [drop_at_length] at h
  exact h.symm

theorem rd16_at (A x : List Nat) (n : Nat) (r : List Nat) (h : x = le16 n ++ r) :
    rd16 (A ++ x) A.length = n % 65536 := by
  rw [rd16, drop_at_length, h, val16_le16]

theorem rd32_at (A x : List Nat) (n : Nat) (r : List Nat) (h : x = le32 n ++ r) :
    rd32 (A ++ x) A.length = n % 4294967296 := by
  rw [rd32, drop_at_length, h, val32_le32]

theorem rd64_at (A x : List Nat) (n : Nat) (r : List Nat) (h : x = le64 n ++ r) :
    rd64 (A ++ x) A.length = n % 18446744073709551616 := by
  rw [rd64, drop_at_length, h, val64_le64]

/-! ## Decoder stepping lemmas -/

theorem getD_at (A x : List Nat) (dflt : Nat) : (A ++ x).getD A.length dflt = x.getD 0 dflt := by
  induction A with
  | nil => rfl
  | cons a A ih => simpa using ih

theorem encField_split (A : List Nat) (t : Nat) (v B : List Nat) :
    A ++ encField t v ++ B = A ++ ((t % 256) :: (le32 v.length ++ (v ++ B))) := by
  simp [encField, List.append_assoc]

theorem encField_length (t : Nat) (v : List Nat) : (encField t v).length = 5 + v.length := by
  simp [encField, le32]
  omega

theorem next_at (A : List Nat) (t : Nat) (v B : List Nat) (a b c : Nat)
    (hv : v.length < 4294967296) :
    PayloadDecoder.next ⟨A ++ encField t v ++ B, A.length, a, b, c⟩ =
      (true, fieldState A t v B) := by
  have hlen : (A ++ encField t v ++ B).length = A.length + 5 + v.length + B.length := by
    simp only [List.length_append, encField_length]
    omega
  have ht : (A ++ encField t v ++ B).getD A.length 0 = t % 256 := by
    rw [encField_split, getD_at]
    rfl
  have hL : rd32 (A ++ encField t v ++ B) (A.length + 1) = v.length := by
    rw [encField_split, rd32, drop_at_length_add, List.drop_one, List.tail_cons,
      val32_le32, Nat.mod_eq_of_lt hv]
  simp only [PayloadDecoder.next, ht, hL, hlen]
  rw [if_neg (by omega), if_neg (by omega)]
  rfl

theorem fieldState_drop (A : List Nat) (t : Nat) (v B : List Nat) :
    (A ++ encField t v ++ B).drop (A.length + 5) = v ++ B := by
  have hsplit : A ++ encField t v ++ B = (A ++ (t % 256) :: le32 v.length) ++ (v ++ B) := by
    simp [encField, List.append_assoc]
  have hlen5 : (A ++ (t % 256) :: le32 v.length).length = A.length + 5 := by
    simp [le32]
  rw [hsplit, ← hlen5, drop_at_length]

theorem fieldState_as_blob (A : List Nat) (t : Nat) (v B : List Nat) :
    (fieldState A t v B).as_blob = v := by
  show ((A ++ encField t v ++ B).drop (A.length + 5)).take v.length = v
  rw [fieldState_drop, List.take_left]

theorem fieldState_as_string (A : List Nat) (t : Nat) (v B : List Nat) :
    (fieldState A t v B).as_string = v := by
  show ((A ++ encField t v ++ B).drop (A.length + 5)).take v.length = v
  rw [fieldState_drop, List.take_left]

theorem fieldState_as_u16 (A : List Nat) (t x : Nat) (B : List Nat) :
    (fieldState A t (le16 x) B).as_u16 = x % 65536 := by
  show (if (le16 x).length < 2 then 0
        else rd16 (A ++ encField t (le16 x) ++ B) (A.length + 5)) = x % 65536
  rw [le16_length, if_neg (by omega), rd16, fieldState_drop, val16_le16]

theorem fieldState_as_u32 (A : List Nat) (t x : Nat) (B : List Nat) :
    (fieldState A t (le32 x) B).as_u32 = x % 4294967296 := by
  show (if (le32 x).length < 4 then 0
        else rd32 (A ++ encField t (le32 x) ++ B) (A.length + 5)) = x % 4294967296
  rw [le32_length, if_neg (by omega), rd32, fieldState_drop, val32_le32]

theorem fieldState_as_u64 (A : List Nat) (t x : Nat) (B : List Nat) :
    (fieldState A t (le64 x) B).as_u64 = x % 18446744073709551616 := by
  show (if (le64 x).length < 8 then 0
        else rd64 (A ++ encField t (le64 x) ++ B) (A.length + 5)) = x % 18446744073709551616
  rw [le64_length, if_neg (by omega), rd64, fieldState_drop, val64_le64]

theorem flat_le32_length (arr : List Nat) : ((arr.map le32).flatten).length = 4 * arr.length := by
  induction arr with
  | nil => rfl
  | cons a arr ih =>
    simp only [List.map_cons, List.flatten_cons, List.length_append, le32_length,
      List.length_cons, ih]
    omega

theorem val32_flat_drop (arr : List Nat) (i : Nat) (hi : i < arr.length) :
    val32 ((arr.map le32).flatten.drop (4 * i)) = arr.getD i 0 % 4294967296 := by
  induction arr generalizing i with
  | nil => simp at hi
  | cons a arr ih =>
    cases i with
    | zero =>
      simpa using val32_le32 a ((arr.map le32).flatten)
    | succ i =>
      have h4 : 4 * (i + 1) = (le32 a).length + 4 * i := by
        rw [le32_length]; omega
      rw [List.map_cons, List.flatten_cons, h4, drop_at_length_add]
      exact ih i (by simpa using Nat.lt_of_succ_lt_succ hi)

theorem fieldState_as_float_array (A : List Nat) (t : Nat) (arr B : List Nat)
    (h : arr.length < 4294967296) :
    (fieldState A t (le32 arr.length ++ (arr.map le32).flatten) B).as_float_array =
      arr.map (fun x => x % 4294967296) := by
  have hraw : (fieldState A t (le32 arr.length ++ (arr.map le32).flatten) B).as_blob =
      le32 arr.length ++ (arr.map le32).flatten := fieldState_as_blob ..
  unfold PayloadDecoder.as_float_array
  rw [hraw]
  have hlenraw : (le32 arr.length ++ (arr.map le32).flatten).length = 4 + 4 * arr.length := by
    rw [List.length_append, le32_length, flat_le32_length]
  have hcount : val32 (le32 arr.length ++ (arr.map le32).flatten) = arr.length := by
    rw [val32_le32, Nat.mod_eq_of_lt h]
  simp only [hlenraw, hcount]
  rw [if_neg (by omega), if_neg (by omega)]
  apply List.ext_getElem
  · simp
  · intro i h1 h2
    have hi : i < arr.length := by simpa using h2
    have hdrop : (le32 arr.length ++ (arr.map le32).flatten).drop (4 + 4 * i) =
        (arr.map le32).flatten.drop (4 * i) := by
      have : 4 + 4 * i = (le32 arr.length).length + 4 * i := by rw [le32_length]
      rw [this, drop_at_length_add]
    simp only [List.getElem_map, List.getElem_range, hdrop]
    rw [val32_flat_drop arr i hi, List.getD_eq_getElem arr 0 hi]

/-! ## Masking lemmas (`& 0xFFFF` and friends on Python ints) -/

theorem mask16_ofNat (x : Nat) : mask16 (Int.ofNat x) = x % 65536 := by
  unfold mask16
  norm_cast

theorem mask32_ofNat (x : Nat) : mask32 (Int.ofNat x) = x % 4294967296 := by
  unfold mask32
  norm_cast

theorem mask64_ofNat (x : Nat) : mask64 (Int.ofNat x) = x % 18446744073709551616 := by
  unfold mask64
  norm_cast

theorem mask16_natCast (x : Nat) : mask16 (x : Int) = x % 65536 := mask16_ofNat x

theorem mask32_natCast (x : Nat) : mask32 (x : Int) = x % 4294967296 := mask32_ofNat x

theorem mask64_natCast (x : Nat) : mask64 (x : Int) = x % 18446744073709551616 :=
  mask64_ofNat x

theorem mask16_zero : mask16 0 = 0 := by decide

theorem mask16_lt (v : Int) : mask16 v < 65536 := by
  unfold mask16; omega

theorem mask32_lt (v : Int) : mask32 v < 4294967296 := by
  unfold mask32; omega

theorem mask64_lt (v : Int) : mask64 v < 18446744073709551616 := by
  unfold mask64; omega

/-- Decoding the first (only) field of a single-field payload. -/
theorem next_init_single (t : Nat) (v : List Nat) (hv : v.length < 4294967296) :
    (PayloadDecoder.init (encField t v)).next = (true, fieldState [] t v []) := by
  have h : encField t v = [] ++ encField t v ++ [] := by simp
  rw [PayloadDecoder.init, h]
  exact next_at [] t v [] 0 0 0 hv

/-- At fewer than 5 remaining bytes, `next` fails and leaves the
decoder untouched. -/
theorem next_end (d : PayloadDecoder) (h : d.data.length < d.pos + 5) :
    d.next = (false, d) := by
  unfold PayloadDecoder.next
  rw [if_pos h]

theorem encFields_cons (t : Nat) (v : List Nat) (fs : List (Nat × List Nat)) :
    encFields ((t, v) :: fs) = encField t v ++ encFields fs := by
  simp [encFields]

theorem encFields_length_ge (fs : List (Nat × List Nat)) :
    fs.length ≤ (encFields fs).length := by
  induction fs with
  | nil => simp [encFields]
  | cons f fs ih =>
    obtain ⟨t, v⟩ := f
    rw [encFields_cons, List.length_append, encField_length, List.length_cons]
    omega

/-! ## Scanning an encoded field sequence -/

theorem findTagGo_spec (fs : List (Nat × List Nat)) (A : List Nat) (tag : Nat)
    (fuel : Nat) (a b c : Nat)
    (hgood : ∀ f ∈ fs, (f.2 : List Nat).length < 4294967296)
    (hfuel : fs.length < fuel) :
    (lookupTag fs tag = none ∧
       findTagGo fuel ⟨A ++ encFields fs, A.length, a, b, c⟩ tag = none) ∨
    (∃ t v A2 B2, lookupTag fs tag = some (t, v) ∧
       A ++ encFields fs = A2 ++ encField t v ++ B2 ∧
       findTagGo fuel ⟨A ++ encFields fs, A.length, a, b, c⟩ tag =
         some (fieldState A2 t v B2)) := by
  induction fs generalizing A fuel a b c with
  | nil =>
    left
    refine ⟨rfl, ?_⟩
    cases fuel with
    | zero => omega
    | succ fuel =>
      have hend : PayloadDecoder.next ⟨A ++ encFields [], A.length, a, b, c⟩ =
          (false, ⟨A ++ encFields [], A.length, a, b, c⟩) := by
        apply next_end
        show (A ++ encFields []).length < A.length + 5
        simp [encFields]
      unfold findTagGo
      rw [hend]
  | cons f fs ih =>
    obtain ⟨t, v⟩ := f
    cases fuel with
    | zero => simp at hfuel
    | succ fuel =>
      have hv : v.length < 4294967296 := hgood (t, v) (by simp)
      have hgood' : ∀ f ∈ fs, (f.2 : List Nat).length < 4294967296 := by
        intro f hf
        exact hgood f (List.mem_cons_of_mem _ hf)
      have hdata : A ++ encFields ((t, v) :: fs) = A ++ encField t v ++ encFields fs := by
        rw [encFields_cons, List.append_assoc]
      rw [hdata]
      have hnext := next_at A t v (encFields fs) a b c hv
      unfold findTagGo
      simp only [hnext]
      have hcond : ((fieldState A t v (encFields fs)).tag = tag) = (t % 256 = tag) := rfl
      simp only [hcond]
      by_cases htag : t % 256 = tag
      · right
        refine ⟨t, v, A, encFields fs, ?_, rfl, ?_⟩
        · simp only [lookupTag]
          rw [if_pos htag]
        · rw [if_pos htag]
      · rw [if_neg htag]
        have hdlen : (A ++ encField t v).length = A.length + 5 + v.length := by
          rw [List.length_append, encField_length]
          omega
        have hstep : fieldState A t v (encFields fs) =
            ⟨(A ++ encField t v) ++ encFields fs, (A ++ encField t v).length,
              t % 256, v.length, A.length + 5⟩ := by
          unfold fieldState
          rw [List.append_assoc, hdlen]
        have hlook : lookupTag ((t, v) :: fs) tag = lookupTag fs tag := by
          simp only [lookupTag]
          rw [if_neg htag]
        rw [hstep, hlook]
        rcases ih (A ++ encField t v) fuel (t % 256) v.length (A.length + 5) hgood'
            (by simp at hfuel; omega) with ⟨h1, h2⟩ | ⟨t2, v2, A2, B2, h1, h2, h3⟩
        · left
          simp only [List.append_assoc] at h2 ⊢
          exact ⟨h1, h2⟩
        · right
          refine ⟨t2, v2, A2, B2, h1, ?_, ?_⟩
          · simp only [List.append_assoc] at h2 ⊢
            exact h2
          · simp only [List.append_assoc] at h3 ⊢
            exact h3

theorem findTag_spec (fs : List (Nat × List Nat)) (tag : Nat)
    (hgood : ∀ f ∈ fs, (f.2 : List Nat).length < 4294967296) :
    (lookupTag fs tag = none ∧ findTag (encFields fs) tag = none) ∨
    (∃ t v A2 B2, lookupTag fs tag = some (t, v) ∧
       encFields fs = A2 ++ encField t v ++ B2 ∧
       findTag (encFields fs) tag = some (fieldState A2 t v B2)) := by
  have h := findTagGo_spec fs [] tag ((encFields fs).length + 1) 0 0 0 hgood
    (by have := encFields_length_ge fs; omega)
  simpa [findTag, PayloadDecoder.init] using h

theorem findTag_as_blob (fs : List (Nat × List Nat)) (tag : Nat)
    (hgood : ∀ f ∈ fs, (f.2 : List Nat).length < 4294967296) :
    (findTag (encFields fs) tag).map PayloadDecoder.as_blob =
      (lookupTag fs tag).map Prod.snd := by
  rcases findTag_spec fs tag hgood with ⟨h1, h2⟩ | ⟨t, v, A2, B2, h1, h2, h3⟩
  · rw [h1, h2]
    rfl
  · rw [h1, h3]
    simp only [Option.map]
    rw [fieldState_as_blob]

theorem findTag_as_u32 (fs : List (Nat × List Nat)) (tag t x : Nat)
    (hgood : ∀ f ∈ fs, (f.2 : List Nat).length < 4294967296)
    (hfind : lookupTag fs tag = some (t, le32 x)) :
    (findTag (encFields fs) tag).map PayloadDecoder.as_u32 = some (x % 4294967296) := by
  rcases findTag_spec fs tag hgood with ⟨h1, _⟩ | ⟨t2, v2, A2, B2, h1, _, h3⟩
  · rw [h1] at hfind
    exact absurd hfind (by simp)
  · rw [h1] at hfind
    obtain ⟨ht, hv⟩ : t2 = t ∧ v2 = le32 x := by
      have := Option.some.inj hfind
      exact ⟨congrArg Prod.fst this, congrArg Prod.snd this⟩
    subst ht hv
    rw [h3]
    simp only [Option.map]
    rw [fieldState_as_u32]

theorem findTag_as_u64 (fs : List (Nat × List Nat)) (tag t x : Nat)
    (hgood : ∀ f ∈ fs, (f.2 : List Nat).length < 4294967296)
    (hfind : lookupTag fs tag = some (t, le64 x)) :
    (findTag (encFields fs) tag).map PayloadDecoder.as_u64 =
      some (x % 18446744073709551616) := by
  rcases findTag_spec fs tag hgood with ⟨h1, _⟩ | ⟨t2, v2, A2, B2, h1, _, h3⟩
  · rw [h1] at hfind
    exact absurd hfind (by simp)
  · rw [h1] at hfind
    obtain ⟨ht, hv⟩ : t2 = t ∧ v2 = le64 x := by
      have := Option.some.inj hfind
      exact ⟨congrArg Prod.fst this, congrArg Prod.snd this⟩
    subst ht hv
    rw [h3]
    simp only [Option.map]
    rw [fieldState_as_u64]

/-! ## Single-field round-trip lemmas -/

theorem put_u16_take (t : Nat) (v : Int) :
    (PayloadEncoder.empty.put_u16 t v).take = encField t (le16 (mask16 v)) := by
  simp [PayloadEncoder.take, PayloadEncoder.put_u16, PayloadEncoder.empty]

theorem put_u32_take (t : Nat) (v : Int) :
    (PayloadEncoder.empty.put_u32 t v).take = encField t (le32 (mask32 v)) := by
  simp [PayloadEncoder.take, PayloadEncoder.put_u32, PayloadEncoder.empty]

theorem put_u64_take (t : Nat) (v : Int) :
    (PayloadEncoder.empty.put_u64 t v).take = encField t (le64 (mask64 v)) := by
  simp [PayloadEncoder.take, PayloadEncoder.put_u64, PayloadEncoder.empty]

theorem put_string_take (t : Nat) (s : List Nat) :
    (PayloadEncoder.empty.put_string t s).take = encField t s := by
  simp [PayloadEncoder.take, PayloadEncoder.put_string, PayloadEncoder.empty]

theorem put_blob_take (t : Nat) (s : List Nat) :
    (PayloadEncoder.empty.put_blob t s).take = encField t s := by
  simp [PayloadEncoder.take, PayloadEncoder.put_blob, PayloadEncoder.empty]

theorem put_float_array_take (t : Nat) (arr : List Nat) :
    (PayloadEncoder.empty.put_float_array t arr).take =
      encField t (le32 arr.length ++ (arr.map le32).flatten) := by
  simp [PayloadEncoder.take, PayloadEncoder.put_float_array, PayloadEncoder.put_blob,
    PayloadEncoder.empty]

theorem roundtrip_u16 (t x : Nat) (h : x < 65536) :
    ((PayloadDecoder.init (PayloadEncoder.empty.put_u16 t (Int.ofNat x)).take).next).1 = true ∧
    ((PayloadDecoder.init (PayloadEncoder.empty.put_u16 t (Int.ofNat x)).take).next).2.as_u16
      = x := by
  rw [put_u16_take, next_init_single t _ (by rw [le16_length]; omega)]
  refine ⟨rfl, ?_⟩
  show (fieldState [] t (le16 (mask16 (Int.ofNat x))) []).as_u16 = x
  rw [fieldState_as_u16, mask16_ofNat]
  omega

theorem roundtrip_u32 (t x : Nat) (h : x < 4294967296) :
    ((PayloadDecoder.init (PayloadEncoder.empty.put_u32 t (Int.ofNat x)).take).next).1 = true ∧
    ((PayloadDecoder.init (PayloadEncoder.empty.put_u32 t (Int.ofNat x)).take).next).2.as_u32
      = x := by
  rw [put_u32_take, next_init_single t _ (by rw [le32_length]; omega)]
  refine ⟨rfl, ?_⟩
  show (fieldState [] t (le32 (mask32 (Int.ofNat x))) []).as_u32 = x
  rw [fieldState_as_u32, mask32_ofNat]
  omega

theorem roundtrip_u64 (t x : Nat) (h : x < 18446744073709551616) :
    ((PayloadDecoder.init (PayloadEncoder.empty.put_u64 t (Int.ofNat x)).take).next).1 = true ∧
    ((PayloadDecoder.init (PayloadEncoder.empty.put_u64 t (Int.ofNat x)).take).next).2.as_u64
      = x := by
  rw [put_u64_take, next_init_single t _ (by rw [le64_length]; omega)]
  refine ⟨rfl, ?_⟩
  show (fieldState [] t (le64 (mask64 (Int.ofNat x))) []).as_u64 = x
  rw [fieldState_as_u64, mask64_ofNat]
  omega

theorem roundtrip_string (t : Nat) (s : List Nat) (h : s.length < 4294967296) :
    ((PayloadDecoder.init (PayloadEncoder.empty.put_string t s).take).next).1 = true ∧
    ((PayloadDecoder.init (PayloadEncoder.empty.put_string t s).take).next).2.as_string
      = s := by
  rw [put_string_take, next_init_single t s h]
  exact ⟨rfl, fieldState_as_string [] t s []⟩

theorem roundtrip_blob (t : Nat) (s : List Nat) (h : s.length < 4294967296) :
    ((PayloadDecoder.init (PayloadEncoder.empty.put_blob t s).take).next).1 = true ∧
    ((PayloadDecoder.init (PayloadEncoder.empty.put_blob t s).take).next).2.as_blob
      = s := by
  rw [put_blob_take, next_init_single t s h]
  exact ⟨rfl, fieldState_as_blob [] t s []⟩

theorem roundtrip_bool (t : Nat) (b : Bool) :
    ((PayloadDecoder.init (PayloadEncoder.empty.put_bool t b).take).next).1 = true ∧
    ((PayloadDecoder.init (PayloadEncoder.empty.put_bool t b).take).next).2.as_bool
      = b := by
  cases b with
  | false =>
    have h := roundtrip_u16 t 0 (by decide)
    refine ⟨h.1, ?_⟩
    show (((PayloadDecoder.init
      (PayloadEncoder.empty.put_u16 t (Int.ofNat 0)).take).next).2.as_u16 != 0) = false
    rw [h.2]
    decide
  | true =>
    have h := roundtrip_u16 t 1 (by decide)
    refine ⟨h.1, ?_⟩
    show (((PayloadDecoder.init
      (PayloadEncoder.empty.put_u16 t (Int.ofNat 1)).take).next).2.as_u16 != 0) = true
    rw [h.2]
    decide

theorem roundtrip_float (t bits : Nat) (h : bits < 4294967296) :
    ((PayloadDecoder.init (PayloadEncoder.empty.put_float t bits).take).next).1 = true ∧
    ((PayloadDecoder.init (PayloadEncoder.empty.put_float t bits).take).next).2.as_float
      = bits :=
  roundtrip_u32 t bits h

theorem roundtrip_double (t bits : Nat) (h : bits < 18446744073709551616) :
    ((PayloadDecoder.init (PayloadEncoder.empty.put_double t bits).take).next).1 = true ∧
    ((PayloadDecoder.init (PayloadEncoder.empty.put_double t bits).take).next).2.as_double
      = bits :=
  roundtrip_u64 t bits h

theorem roundtrip_float_array (t : Nat) (arr : List Nat)
    (hlen : arr.length < 1073741823) (helem : ∀ b ∈ arr, b < 4294967296) :
    ((PayloadDecoder.init (PayloadEncoder.empty.put_float_array t arr).take).next).1 = true ∧
    ((PayloadDecoder.init
        (PayloadEncoder.empty.put_float_array t arr).take).next).2.as_float_array = arr := by
  have hv : (le32 arr.length ++ (arr.map le32).flatten).length < 4294967296 := by
    rw [List.length_append, le32_length, flat_le32_length]
    omega
  rw [put_float_array_take, next_init_single t _ hv]
  refine ⟨rfl, ?_⟩
  show (fieldState [] t (le32 arr.length ++ (arr.map le32).flatten) []).as_float_array = arr
  rw [fieldState_as_float_array [] t arr [] (by omega)]
  have : arr.map (fun x => x % 4294967296) = arr.map id :=
    List.map_congr_left fun a ha => Nat.mod_eq_of_lt (helem a ha)
  simpa using this

/-!
## Claim theorems
-/

/-- **C2.** For every in-range header field tuple, `encode_header`
produces exactly 40 bytes and `decode_header` reproduces all six
fields exactly; `decode_header` returns the `none` sentinel (never an
exception) on every input shorter than 40 bytes and on every input of
40 bytes or more whose first two bytes differ from the magic constant;
and it performs no `payload_len` bounds validation (the round-trip
succeeds for every `payload_len < 2^32`, far above the 256 MiB
transport maximum). -/
theorem C2_header_roundtrip :
    (∀ msgType payload_len seq request_id session_id window_id : Nat,
      msgType < 65536 → payload_len < 4294967296 →
      seq < 18446744073709551616 → request_id < 18446744073709551616 →
      session_id < 18446744073709551616 → window_id < 18446744073709551616 →
      (encode_header msgType payload_len seq request_id session_id window_id).length = 40 ∧
      decode_header (encode_header msgType payload_len seq request_id session_id window_id)
        = some ⟨msgType, payload_len, seq, request_id, session_id, window_id⟩) ∧
    (∀ data : List Nat, data.length < 40 → decode_header data = none) ∧
    (∀ data : List Nat, 40 ≤ data.length →
      ¬ (data.getD 0 0 = MAGIC0 ∧ data.getD 1 0 = MAGIC1) → decode_header data = none) := by
  refine ⟨?_, ?_, ?_⟩
  · intro t pl sq rq se w ht hpl hsq hrq hse hw
    have hlen : (encode_header t pl sq rq se w).length = 40 := by
      simp [encode_header, le16, le32, le64]
    refine ⟨hlen, ?_⟩
    have hg0 : (encode_header t pl sq rq se w).getD 0 0 = MAGIC0 := by
      simp [encode_header]
    have hg1 : (encode_header t pl sq rq se w).getD 1 0 = MAGIC1 := by
      simp [encode_header]
    have h1 : rd16 (encode_header t pl sq rq se w) 2 = t := by
      have := rd16_at [MAGIC0, MAGIC1]
        (le16 t ++ (le32 pl ++ (le64 sq ++ (le64 rq ++ (le64 se ++ le64 w))))) t
        (le32 pl ++ (le64 sq ++ (le64 rq ++ (le64 se ++ le64 w)))) rfl
      rw [Nat.mod_eq_of_lt ht] at this
      simpa [encode_header, List.append_assoc] using this
    have h2 : rd32 (encode_header t pl sq rq se w) 4 = pl := by
      have := rd32_at ([MAGIC0, MAGIC1] ++ le16 t)
        (le32 pl ++ (le64 sq ++ (le64 rq ++ (le64 se ++ le64 w)))) pl
        (le64 sq ++ (le64 rq ++ (le64 se ++ le64 w))) rfl
      rw [Nat.mod_eq_of_lt hpl] at this
      simpa [encode_header, le16_length, List.append_assoc] using this
    have h3 : rd64 (encode_header t pl sq rq se w) 8 = sq := by
      have := rd64_at ([MAGIC0, MAGIC1] ++ le16 t ++ le32 pl)
        (le64 sq ++ (le64 rq ++ (le64 se ++ le64 w))) sq
        (le64 rq ++ (le64 se ++ le64 w)) rfl
      rw [Nat.mod_eq_of_lt hsq] at this
      simpa [encode_header, le16_length, le32_length, List.append_assoc] using this
    have h4 : rd64 (encode_header t pl sq rq se w) 16 = rq := by
      have := rd64_at ([MAGIC0, MAGIC1] ++ le16 t ++ le32 pl ++ le64 sq)
        (le64 rq ++ (le64 se ++ le64 w)) rq (le64 se ++ le64 w) rfl
      rw [Nat.mod_eq_of_lt hrq] at this
      simpa [encode_header, le16_length, le32_length, le64_length, List.append_assoc]
        using this
    have h5 : rd64 (encode_header t pl sq rq se w) 24 = se := by
      have := rd64_at ([MAGIC0, MAGIC1] ++ le16 t ++ le32 pl ++ le64 sq ++ le64 rq)
        (le64 se ++ le64 w) se (le64 w) rfl
      rw [Nat.mod_eq_of_lt hse] at this
      simpa [encode_header, le16_length, le32_length, le64_length, List.append_assoc]
        using this
    have h6 : rd64 (encode_header t pl sq rq se w) 32 = w := by
      have := rd64_at ([MAGIC0, MAGIC1] ++ le16 t ++ le32 pl ++ le64 sq ++ le64 rq ++ le64 se)
        (le64 w) w [] (by simp)
      rw [Nat.mod_eq_of_lt hw] at this
      simpa [encode_header, le16_length, le32_length, le64_length, List.append_assoc]
        using this
    unfold decode_header
    rw [hlen, if_neg (by decide), if_pos ⟨hg0, hg1⟩, h1, h2, h3, h4, h5, h6]
  · intro data h
    unfold decode_header
    rw [if_pos (by unfold HEADER_SIZE; omega)]
  · intro data hlen hmagic
    unfold decode_header
    rw [if_neg (by unfold HEADER_SIZE; omega), if_neg hmagic]

/-- **C2 witness.** A concrete round-trip whose `payload_len`
(300 000 000) exceeds the 256 MiB transport maximum (decoding still
succeeds: the header codec does not validate bounds), a 1-byte input,
and a 40-byte input with a wrong first magic byte. -/
theorem C2_header_roundtrip_witness :
    decode_header (encode_header 7 300000000 1 2 3 4) = some ⟨7, 300000000, 1, 2, 3, 4⟩ ∧
    decode_header [0x53] = none ∧
    decode_header (0x54 :: List.replicate 39 0) = none :=
  ⟨(C2_header_roundtrip.1 7 300000000 1 2 3 4 (by decide) (by decide) (by decide)
      (by decide) (by decide) (by decide)).2,
   C2_header_roundtrip.2.1 [0x53] (by decide),
   C2_header_roundtrip.2.2 (0x54 :: List.replicate 39 0) (by decide) (by decide)⟩

/-- **C3.** Scalar round-trip: for every scalar kind supported by the
TLV codec (u16, u32, u64, string, bool, float32, float64, blob, float
array) and every in-range value of that kind — zero, maxima, the empty
string and the empty array included — encoding with the corresponding
`put_*` and reading back through `PayloadDecoder.next()` plus the
corresponding accessor yields the value unchanged, with float32 and
float64 reproduced bit-identically (the model carries the IEEE-754 bit
patterns, so equality of the results is bit-identity). -/
theorem C3_scalar_roundtrip :
    (∀ t x : Nat, x < 65536 →
      ((PayloadDecoder.init (PayloadEncoder.empty.put_u16 t (Int.ofNat x)).take).next).1
        = true ∧
      ((PayloadDecoder.init (PayloadEncoder.empty.put_u16 t (Int.ofNat x)).take).next).2.as_u16
        = x) ∧
    (∀ t x : Nat, x < 4294967296 →
      ((PayloadDecoder.init (PayloadEncoder.empty.put_u32 t (Int.ofNat x)).take).next).1
        = true ∧
      ((PayloadDecoder.init (PayloadEncoder.empty.put_u32 t (Int.ofNat x)).take).next).2.as_u32
        = x) ∧
    (∀ t x : Nat, x < 18446744073709551616 →
      ((PayloadDecoder.init (PayloadEncoder.empty.put_u64 t (Int.ofNat x)).take).next).1
        = true ∧
      ((PayloadDecoder.init (PayloadEncoder.empty.put_u64 t (Int.ofNat x)).take).next).2.as_u64
        = x) ∧
    (∀ (t : Nat) (s : List Nat), s.length < 4294967296 →
      ((PayloadDecoder.init (PayloadEncoder.empty.put_string t s).take).next).1 = true ∧
      ((PayloadDecoder.init (PayloadEncoder.empty.put_string t s).take).next).2.as_string
        = s) ∧
    (∀ (t : Nat) (b : Bool),
      ((PayloadDecoder.init (PayloadEncoder.empty.put_bool t b).take).next).1 = true ∧
      ((PayloadDecoder.init (PayloadEncoder.empty.put_bool t b).take).next).2.as_bool = b) ∧
    (∀ t bits : Nat, bits < 4294967296 →
      ((PayloadDecoder.init (PayloadEncoder.empty.put_float t bits).take).next).1 = true ∧
      ((PayloadDecoder.init (PayloadEncoder.empty.put_float t bits).take).next).2.as_float
        = bits) ∧
    (∀ t bits : Nat, bits < 18446744073709551616 →
      ((PayloadDecoder.init (PayloadEncoder.empty.put_double t bits).take).next).1 = true ∧
      ((PayloadDecoder.init (PayloadEncoder.empty.put_double t bits).take).next).2.as_double
        = bits) ∧
    (∀ (t : Nat) (s : List Nat), s.length < 4294967296 →
      ((PayloadDecoder.init (PayloadEncoder.empty.put_blob t s).take).next).1 = true ∧
      ((PayloadDecoder.init (PayloadEncoder.empty.put_blob t s).take).next).2.as_blob = s) ∧
    (∀ (t : Nat) (arr : List Nat), arr.length < 1073741823 →
      (∀ b ∈ arr, b < 4294967296) →
      ((PayloadDecoder.init (PayloadEncoder.empty.put_float_array t arr).take).next).1
        = true ∧
      ((PayloadDecoder.init
          (PayloadEncoder.empty.put_float_array t arr).take).next).2.as_float_array = arr) :=
  ⟨roundtrip_u16, roundtrip_u32, roundtrip_u64, roundtrip_string, roundtrip_bool,
   roundtrip_float, roundtrip_double, roundtrip_blob, roundtrip_float_array⟩

/-- **C3 witness.** Concrete round-trips at the extremes the claim
names: zero and maximum integers, a max-pattern float64, the empty
string, the empty float array, and a nonempty float array. -/
theorem C3_scalar_roundtrip_witness :
    (((PayloadDecoder.init (PayloadEncoder.empty.put_u16 3 (Int.ofNat 65535)).take).next).2.as_u16
      = 65535) ∧
    (((PayloadDecoder.init (PayloadEncoder.empty.put_u32 3 (Int.ofNat 0)).take).next).2.as_u32
      = 0) ∧
    (((PayloadDecoder.init
        (PayloadEncoder.empty.put_u64 3 (Int.ofNat 18446744073709551615)).take).next).2.as_u64
      = 18446744073709551615) ∧
    (((PayloadDecoder.init (PayloadEncoder.empty.put_string 3 []).take).next).2.as_string
      = []) ∧
    (((PayloadDecoder.init (PayloadEncoder.empty.put_bool 3 true).take).next).2.as_bool
      = true) ∧
    (((PayloadDecoder.init
        (PayloadEncoder.empty.put_double 3 18446744073709551615).take).next).2.as_double
      = 18446744073709551615) ∧
    (((PayloadDecoder.init (PayloadEncoder.empty.put_float_array 3 []).take).next).2.as_float_array
      = []) ∧
    (((PayloadDecoder.init
        (PayloadEncoder.empty.put_float_array 3 [1, 4294967295]).take).next).2.as_float_array
      = [1, 4294967295]) :=
  ⟨(C3_scalar_roundtrip.1 3 65535 (by decide)).2,
   (C3_scalar_roundtrip.2.1 3 0 (by decide)).2,
   (C3_scalar_roundtrip.2.2.1 3 18446744073709551615 (by decide)).2,
   (C3_scalar_roundtrip.2.2.2.1 3 [] (by decide)).2,
   (C3_scalar_roundtrip.2.2.2.2.1 3 true).2,
   (C3_scalar_roundtrip.2.2.2.2.2.2.1 3 18446744073709551615 (by decide)).2,
   (C3_scalar_roundtrip.2.2.2.2.2.2.2.2 3 [] (by decide) (by decide)).2,
   (C3_scalar_roundtrip.2.2.2.2.2.2.2.2 3 [1, 4294967295] (by decide) (by decide)).2⟩

/-- **C10.** The scalar `put` methods never reject an out-of-range
integer: for every Python int `v` — negative and oversized values
included — `put_u16` encodes `v mod 2^16`, `put_u32` encodes
`v mod 2^32` and `put_u64` encodes `v mod 2^64`, so the
encode/decode round-trip silently yields `v` reduced modulo the field
width instead of raising an error. -/
theorem C10_put_masking (t : Nat) (v : Int) :
    (PayloadEncoder.empty.put_u16 t v).take = encField t (le16 ((v % 65536).toNat)) ∧
    ((PayloadDecoder.init (PayloadEncoder.empty.put_u16 t v).take).next).1 = true ∧
    ((PayloadDecoder.init (PayloadEncoder.empty.put_u16 t v).take).next).2.as_u16
      = (v % 65536).toNat ∧
    (PayloadEncoder.empty.put_u32 t v).take = encField t (le32 ((v % 4294967296).toNat)) ∧
    ((PayloadDecoder.init (PayloadEncoder.empty.put_u32 t v).take).next).1 = true ∧
    ((PayloadDecoder.init (PayloadEncoder.empty.put_u32 t v).take).next).2.as_u32
      = (v % 4294967296).toNat ∧
    (PayloadEncoder.empty.put_u64 t v).take
      = encField t (le64 ((v % 18446744073709551616).toNat)) ∧
    ((PayloadDecoder.init (PayloadEncoder.empty.put_u64 t v).take).next).1 = true ∧
    ((PayloadDecoder.init (PayloadEncoder.empty.put_u64 t v).take).next).2.as_u64
      = (v % 18446744073709551616).toNat := by
  refine ⟨put_u16_take t v, ?_, ?_, put_u32_take t v, ?_, ?_, put_u64_take t v, ?_, ?_⟩
  · rw [put_u16_take, next_init_single t _ (by rw [le16_length]; omega)]
  · rw [put_u16_take, next_init_single t _ (by rw [le16_length]; omega)]
    show (fieldState [] t (le16 (mask16 v)) []).as_u16 = (v % 65536).toNat
    rw [fieldState_as_u16]
    have := mask16_lt v
    unfold mask16 at *
    omega
  · rw [put_u32_take, next_init_single t _ (by rw [le32_length]; omega)]
  · rw [put_u32_take, next_init_single t _ (by rw [le32_length]; omega)]
    show (fieldState [] t (le32 (mask32 v)) []).as_u32 = (v % 4294967296).toNat
    rw [fieldState_as_u32]
    have := mask32_lt v
    unfold mask32 at *
    omega
  · rw [put_u64_take, next_init_single t _ (by rw [le64_length]; omega)]
  · rw [put_u64_take, next_init_single t _ (by rw [le64_length]; omega)]
    show (fieldState [] t (le64 (mask64 v)) []).as_u64 = (v % 18446744073709551616).toNat
    rw [fieldState_as_u64]
    have := mask64_lt v
    unfold mask64 at *
    omega


/-- **C4.** Decoder safety on arbitrary (truncated or malformed)
input: `next()` returns `false` — never an error — at end-of-buffer
(fewer than 5 bytes remain for a field header) and whenever the
current field's declared length would overrun the buffer; a successful
`next()` keeps the cursor inside the buffer and strictly advances it
(so scanning terminates and never reads out of bounds); and every
accessor applied to a field shorter than the width it requires
returns the zero/empty default: `as_u16`/`as_u32`/`as_u64` return 0
and `as_float_array` returns the empty list. -/
theorem C4_decoder_safety :
    (∀ d : PayloadDecoder, d.data.length < d.pos + 5 →
      (d.next).1 = false ∧ (d.next).2 = d) ∧
    (∀ d : PayloadDecoder, d.pos + 5 ≤ d.data.length →
      d.data.length < d.pos + 5 + rd32 d.data (d.pos + 1) → (d.next).1 = false) ∧
    (∀ d : PayloadDecoder, (d.next).1 = true →
      (d.next).2.pos ≤ d.data.length ∧ d.pos < (d.next).2.pos) ∧
    (∀ d : PayloadDecoder, d.len < 2 → d.as_u16 = 0) ∧
    (∀ d : PayloadDecoder, d.len < 4 → d.as_u32 = 0) ∧
    (∀ d : PayloadDecoder, d.len < 8 → d.as_u64 = 0) ∧
    (∀ d : PayloadDecoder, d.as_blob.length < 4 + val32 d.as_blob * 4 →
      d.as_float_array = []) := by
  refine ⟨?_, ?_, ?_, ?_, ?_, ?_, ?_⟩
  · intro d h
    rw [next_end d h]
    exact ⟨rfl, rfl⟩
  · intro d h1 h2
    unfold PayloadDecoder.next
    rw [if_neg (by omega), if_pos h2]
  · intro d h
    unfold PayloadDecoder.next at h ⊢
    by_cases h1 : d.data.length < d.pos + 5
    · rw [if_pos h1] at h
      simp at h
    · rw [if_neg h1] at h ⊢
      by_cases h2 : d.data.length < d.pos + 5 + rd32 d.data (d.pos + 1)
      · rw [if_pos h2] at h
        simp at h
      · rw [if_neg h2] at h ⊢
        constructor
        · show d.pos + 5 + rd32 d.data (d.pos + 1) ≤ d.data.length
          omega
        · show d.pos < d.pos + 5 + rd32 d.data (d.pos + 1)
          omega
  · intro d h
    unfold PayloadDecoder.as_u16
    rw [if_pos h]
  · intro d h
    unfold PayloadDecoder.as_u32
    rw [if_pos h]
  · intro d h
    unfold PayloadDecoder.as_u64
    rw [if_pos h]
  · intro d h
    unfold PayloadDecoder.as_float_array
    by_cases h1 : d.as_blob.length < 4
    · rw [if_pos h1]
    · rw [if_neg h1, if_pos h]

/-- **C4 witness.** Concrete malformed inputs: the empty buffer
(`next` is `false` and the state is unchanged), a field whose declared
length `0xFFFFFFFF` overruns its 5-byte buffer, a well-formed
empty-value field (`next` is `true`, cursor stays in bounds), a
2-byte-short field read as `as_u32`, and a truncated float array. -/
theorem C4_decoder_safety_witness :
    ((PayloadDecoder.init []).next).1 = false ∧ ((PayloadDecoder.init []).next).2
      = PayloadDecoder.init [] ∧
    ((PayloadDecoder.init [7, 255, 255, 255, 255]).next).1 = false ∧
    ((PayloadDecoder.init [7, 0, 0, 0, 0]).next).1 = true ∧
    ((PayloadDecoder.init [7, 0, 0, 0, 0]).next).2.pos
      ≤ (PayloadDecoder.init [7, 0, 0, 0, 0]).data.length ∧
    PayloadDecoder.as_u32 ⟨[9, 9], 0, 7, 2, 0⟩ = 0 ∧
    PayloadDecoder.as_float_array ⟨[2, 0, 0, 0, 9], 0, 7, 5, 0⟩ = [] := by
  have h1 := (C4_decoder_safety.1 (PayloadDecoder.init []) (by decide))
  have h2 := (C4_decoder_safety.2.1 (PayloadDecoder.init [7, 255, 255, 255, 255])
    (by decide) (by norm_num [PayloadDecoder.init, rd32, val32]))
  have h3 : ((PayloadDecoder.init [7, 0, 0, 0, 0]).next).1 = true := by decide
  have h4 := (C4_decoder_safety.2.2.1 (PayloadDecoder.init [7, 0, 0, 0, 0]) h3)
  have h5 := (C4_decoder_safety.2.2.2.2.1 (⟨[9, 9], 0, 7, 2, 0⟩ : PayloadDecoder)
    (by decide))
  have h6 := (C4_decoder_safety.2.2.2.2.2.2 (⟨[2, 0, 0, 0, 9], 0, 7, 5, 0⟩ : PayloadDecoder)
    (by decide))
  exact ⟨h1.1, h1.2, h2, h3, h4.1, h5, h6⟩


theorem three_blob_take (tA tU tB : Nat) (va vu vb : List Nat) :
    (((PayloadEncoder.empty.put_blob tA va).put_blob tU vu).put_blob tB vb).take =
      encFields [(tA, va), (tU, vu), (tB, vb)] := by
  simp [PayloadEncoder.take, PayloadEncoder.put_blob, PayloadEncoder.empty, encFields]

/-- **C5.** Unknown-tag tolerance: in a payload carrying fields with
tags `[A, unknown, B]`, a consumer that scans with
`PayloadDecoder.next()` looking only for tags `A` and `B` still
recovers both values unchanged; the unknown middle field is skipped
without error. -/
theorem C5_unknown_tag (tA tU tB : Nat) (va vu vb : List Nat)
    (hA : tA < 256) (hU : tU < 256) (hB : tB < 256)
    (hAB : tA ≠ tB) (hUB : tU ≠ tB)
    (hva : va.length < 4294967296) (hvu : vu.length < 4294967296)
    (hvb : vb.length < 4294967296) :
    (findTag ((((PayloadEncoder.empty.put_blob tA va).put_blob tU vu).put_blob tB vb).take)
        tA).map PayloadDecoder.as_blob = some va ∧
    (findTag ((((PayloadEncoder.empty.put_blob tA va).put_blob tU vu).put_blob tB vb).take)
        tB).map PayloadDecoder.as_blob = some vb := by
  have hgood : ∀ f ∈ [(tA, va), (tU, vu), (tB, vb)],
      (f.2 : List Nat).length < 4294967296 := by
    intro f hf
    simp only [List.mem_cons, List.not_mem_nil, or_false] at hf
    rcases hf with rfl | rfl | rfl
    · exact hva
    · exact hvu
    · exact hvb
  have e1 : lookupTag [(tA, va), (tU, vu), (tB, vb)] tA = some (tA, va) := by
    simp only [lookupTag]
    rw [Nat.mod_eq_of_lt hA, if_pos rfl]
  have e2 : lookupTag [(tA, va), (tU, vu), (tB, vb)] tB = some (tB, vb) := by
    simp only [lookupTag]
    rw [Nat.mod_eq_of_lt hA, Nat.mod_eq_of_lt hU, Nat.mod_eq_of_lt hB,
      if_neg hAB, if_neg hUB, if_pos rfl]
  constructor
  · rw [three_blob_take, findTag_as_blob _ _ hgood, e1]
    rfl
  · rw [three_blob_take, findTag_as_blob _ _ hgood, e2]
    rfl

/-- **C5 witness.** Tags `1`, `2` (unknown), `3` with distinct
values: both the tag-1 and the tag-3 values are recovered. -/
theorem C5_unknown_tag_witness :
    (findTag ((((PayloadEncoder.empty.put_blob 1 [10]).put_blob 2 [20, 21]).put_blob
        3 [30]).take) 1).map PayloadDecoder.as_blob = some [10] ∧
    (findTag ((((PayloadEncoder.empty.put_blob 1 [10]).put_blob 2 [20, 21]).put_blob
        3 [30]).take) 3).map PayloadDecoder.as_blob = some [30] :=
  C5_unknown_tag 1 2 3 [10] [20, 21] [30] (by decide) (by decide) (by decide)
    (by decide) (by decide) (by decide) (by decide) (by decide)


/-! ## Chunked transfer lemmas -/

theorem set_data_chunked_fields (fid sidx : Nat) (chunk : List Nat) (cnt ci cc tc : Nat)
    (hfid : fid < 18446744073709551616) (hsidx : sidx < 4294967296)
    (hci : ci < 4294967296) (hcc : cc < 4294967296) (htc : tc < 4294967296) :
    encode_req_set_data_chunked fid sidx chunk cnt ci cc tc 0 =
      encFields [(TAG_FIGURE_ID, le64 fid),
                 (TAG_SERIES_INDEX, le32 sidx),
                 (TAG_DTYPE, le16 0),
                 (TAG_CHUNK_INDEX, le32 ci),
                 (TAG_CHUNK_COUNT, le32 cc),
                 (TAG_TOTAL_COUNT, le32 tc),
                 (TAG_BLOB_INLINE, le32 cnt ++ chunk)] := by
  simp [encode_req_set_data_chunked, PayloadEncoder.take, PayloadEncoder.put_u64,
    PayloadEncoder.put_u32, PayloadEncoder.put_u16, PayloadEncoder.put_blob,
    PayloadEncoder.empty, encFields, mask64_ofNat, mask32_ofNat, mask16_ofNat,
    mask64_natCast, mask32_natCast, mask16_natCast, mask16_zero,
    Nat.mod_eq_of_lt hfid, Nat.mod_eq_of_lt hsidx, Nat.mod_eq_of_lt hci,
    Nat.mod_eq_of_lt hcc, Nat.mod_eq_of_lt htc]

theorem set_data_raw_fields (fid sidx : Nat) (raw : List Nat) (cnt : Nat)
    (hfid : fid < 18446744073709551616) (hsidx : sidx < 4294967296) :
    encode_req_set_data_raw fid sidx raw cnt 0 =
      encFields [(TAG_FIGURE_ID, le64 fid),
                 (TAG_SERIES_INDEX, le32 sidx),
                 (TAG_DTYPE, le16 0),
                 (TAG_BLOB_INLINE, le32 cnt ++ raw)] := by
  simp [encode_req_set_data_raw, PayloadEncoder.take, PayloadEncoder.put_u64,
    PayloadEncoder.put_u32, PayloadEncoder.put_u16, PayloadEncoder.put_blob,
    PayloadEncoder.empty, encFields, mask64_ofNat, mask32_ofNat, mask16_ofNat,
    mask64_natCast, mask32_natCast, mask16_natCast, mask16_zero,
    Nat.mod_eq_of_lt hfid, Nat.mod_eq_of_lt hsidx]

theorem chunk_payload_spec (fid sidx : Nat) (chunk : List Nat) (cnt ci cc tc : Nat)
    (hfid : fid < 18446744073709551616) (hsidx : sidx < 4294967296)
    (hci : ci < 4294967296) (hcc : cc < 4294967296) (htc : tc < 4294967296)
    (hch : chunk.length < 4294967291) :
    (findTag (encode_req_set_data_chunked fid sidx chunk cnt ci cc tc 0)
        TAG_CHUNK_INDEX).map PayloadDecoder.as_u32 = some ci ∧
    (findTag (encode_req_set_data_chunked fid sidx chunk cnt ci cc tc 0)
        TAG_CHUNK_COUNT).map PayloadDecoder.as_u32 = some cc ∧
    (findTag (encode_req_set_data_chunked fid sidx chunk cnt ci cc tc 0)
        TAG_TOTAL_COUNT).map PayloadDecoder.as_u32 = some tc ∧
    (findTag (encode_req_set_data_chunked fid sidx chunk cnt ci cc tc 0)
        TAG_FIGURE_ID).map PayloadDecoder.as_u64 = some fid ∧
    (findTag (encode_req_set_data_chunked fid sidx chunk cnt ci cc tc 0)
        TAG_SERIES_INDEX).map PayloadDecoder.as_u32 = some sidx ∧
    (findTag (encode_req_set_data_chunked fid sidx chunk cnt ci cc tc 0)
        TAG_BLOB_INLINE).map PayloadDecoder.as_blob = some (le32 cnt ++ chunk) := by
  rw [set_data_chunked_fields fid sidx chunk cnt ci cc tc hfid hsidx hci hcc htc]
  have hgood : ∀ f ∈ [(TAG_FIGURE_ID, le64 fid),
                 (TAG_SERIES_INDEX, le32 sidx),
                 (TAG_DTYPE, le16 0),
                 (TAG_CHUNK_INDEX, le32 ci),
                 (TAG_CHUNK_COUNT, le32 cc),
                 (TAG_TOTAL_COUNT, le32 tc),
                 (TAG_BLOB_INLINE, le32 cnt ++ chunk)],
      (f.2 : List Nat).length < 4294967296 := by
    intro f hf
    simp only [List.mem_cons, List.not_mem_nil, or_false] at hf
    rcases hf with rfl | rfl | rfl | rfl | rfl | rfl | rfl
    · rw [le64_length]; omega
    · rw [le32_length]; omega
    · rw [le16_length]; omega
    · rw [le32_length]; omega
    · rw [le32_length]; omega
    · rw [le32_length]; omega
    · rw [List.length_append, le32_length]; omega
  refine ⟨?_, ?_, ?_, ?_, ?_, ?_⟩
  · have l : lookupTag [(TAG_FIGURE_ID, le64 fid), (TAG_SERIES_INDEX, le32 sidx),
        (TAG_DTYPE, le16 0), (TAG_CHUNK_INDEX, le32 ci), (TAG_CHUNK_COUNT, le32 cc),
        (TAG_TOTAL_COUNT, le32 tc), (TAG_BLOB_INLINE, le32 cnt ++ chunk)]
        TAG_CHUNK_INDEX = some (TAG_CHUNK_INDEX, le32 ci) := by
      simp [lookupTag, TAG_FIGURE_ID, TAG_SERIES_INDEX, TAG_DTYPE, TAG_CHUNK_INDEX,
        TAG_CHUNK_COUNT, TAG_TOTAL_COUNT, TAG_BLOB_INLINE]
    rw [findTag_as_u32 _ _ _ _ hgood l, Nat.mod_eq_of_lt hci]
  · have l : lookupTag [(TAG_FIGURE_ID, le64 fid), (TAG_SERIES_INDEX, le32 sidx),
        (TAG_DTYPE, le16 0), (TAG_CHUNK_INDEX, le32 ci), (TAG_CHUNK_COUNT, le32 cc),
        (TAG_TOTAL_COUNT, le32 tc), (TAG_BLOB_INLINE, le32 cnt ++ chunk)]
        TAG_CHUNK_COUNT = some (TAG_CHUNK_COUNT, le32 cc) := by
      simp [lookupTag, TAG_FIGURE_ID, TAG_SERIES_INDEX, TAG_DTYPE, TAG_CHUNK_INDEX,
        TAG_CHUNK_COUNT, TAG_TOTAL_COUNT, TAG_BLOB_INLINE]
    rw [findTag_as_u32 _ _ _ _ hgood l, Nat.mod_eq_of_lt hcc]
  · have l : lookupTag [(TAG_FIGURE_ID, le64 fid), (TAG_SERIES_INDEX, le32 sidx),
        (TAG_DTYPE, le16 0), (TAG_CHUNK_INDEX, le32 ci), (TAG_CHUNK_COUNT, le32 cc),
        (TAG_TOTAL_COUNT, le32 tc), (TAG_BLOB_INLINE, le32 cnt ++ chunk)]
        TAG_TOTAL_COUNT = some (TAG_TOTAL_COUNT, le32 tc) := by
      simp [lookupTag, TAG_FIGURE_ID, TAG_SERIES_INDEX, TAG_DTYPE, TAG_CHUNK_INDEX,
        TAG_CHUNK_COUNT, TAG_TOTAL_COUNT, TAG_BLOB_INLINE]
    rw [findTag_as_u32 _ _ _ _ hgood l, Nat.mod_eq_of_lt htc]
  · have l : lookupTag [(TAG_FIGURE_ID, le64 fid), (TAG_SERIES_INDEX, le32 sidx),
        (TAG_DTYPE, le16 0), (TAG_CHUNK_INDEX, le32 ci), (TAG_CHUNK_COUNT, le32 cc),
        (TAG_TOTAL_COUNT, le32 tc), (TAG_BLOB_INLINE, le32 cnt ++ chunk)]
        TAG_FIGURE_ID = some (TAG_FIGURE_ID, le64 fid) := by
      simp [lookupTag, TAG_FIGURE_ID]
    rw [findTag_as_u64 _ _ _ _ hgood l, Nat.mod_eq_of_lt hfid]
  · have l : lookupTag [(TAG_FIGURE_ID, le64 fid), (TAG_SERIES_INDEX, le32 sidx),
        (TAG_DTYPE, le16 0), (TAG_CHUNK_INDEX, le32 ci), (TAG_CHUNK_COUNT, le32 cc),
        (TAG_TOTAL_COUNT, le32 tc), (TAG_BLOB_INLINE, le32 cnt ++ chunk)]
        TAG_SERIES_INDEX = some (TAG_SERIES_INDEX, le32 sidx) := by
      simp [lookupTag, TAG_FIGURE_ID, TAG_SERIES_INDEX]
    rw [findTag_as_u32 _ _ _ _ hgood l, Nat.mod_eq_of_lt hsidx]
  · have l : lookupTag [(TAG_FIGURE_ID, le64 fid), (TAG_SERIES_INDEX, le32 sidx),
        (TAG_DTYPE, le16 0), (TAG_CHUNK_INDEX, le32 ci), (TAG_CHUNK_COUNT, le32 cc),
        (TAG_TOTAL_COUNT, le32 tc), (TAG_BLOB_INLINE, le32 cnt ++ chunk)]
        TAG_BLOB_INLINE = some (TAG_BLOB_INLINE, le32 cnt ++ chunk) := by
      simp [lookupTag, TAG_FIGURE_ID, TAG_SERIES_INDEX, TAG_DTYPE, TAG_CHUNK_INDEX,
        TAG_CHUNK_COUNT, TAG_TOTAL_COUNT, TAG_BLOB_INLINE]
    rw [findTag_as_blob _ _ hgood, l]
    rfl

theorem raw_payload_no_chunk_tags (fid sidx : Nat) (raw : List Nat) (cnt : Nat)
    (hfid : fid < 18446744073709551616) (hsidx : sidx < 4294967296)
    (hraw : raw.length < 4294967291) :
    findTag (encode_req_set_data_raw fid sidx raw cnt 0) TAG_CHUNK_INDEX = none ∧
    findTag (encode_req_set_data_raw fid sidx raw cnt 0) TAG_CHUNK_COUNT = none ∧
    findTag (encode_req_set_data_raw fid sidx raw cnt 0) TAG_TOTAL_COUNT = none := by
  rw [set_data_raw_fields fid sidx raw cnt hfid hsidx]
  have hgood : ∀ f ∈ [(TAG_FIGURE_ID, le64 fid), (TAG_SERIES_INDEX, le32 sidx),
        (TAG_DTYPE, le16 0), (TAG_BLOB_INLINE, le32 cnt ++ raw)],
      (f.2 : List Nat).length < 4294967296 := by
    intro f hf
    simp only [List.mem_cons, List.not_mem_nil, or_false] at hf
    rcases hf with rfl | rfl | rfl | rfl
    · rw [le64_length]; omega
    · rw [le32_length]; omega
    · rw [le16_length]; omega
    · rw [List.length_append, le32_length]; omega
  refine ⟨?_, ?_, ?_⟩
  · have l : lookupTag [(TAG_FIGURE_ID, le64 fid), (TAG_SERIES_INDEX, le32 sidx),
        (TAG_DTYPE, le16 0), (TAG_BLOB_INLINE, le32 cnt ++ raw)] TAG_CHUNK_INDEX = none := by
      simp [lookupTag, TAG_FIGURE_ID, TAG_SERIES_INDEX, TAG_DTYPE, TAG_BLOB_INLINE,
        TAG_CHUNK_INDEX]
    rcases findTag_spec _ TAG_CHUNK_INDEX hgood with ⟨_, h2⟩ | ⟨t, v, A2, B2, h1, _, _⟩
    · exact h2
    · rw [l] at h1
      exact absurd h1 (by simp)
  · have l : lookupTag [(TAG_FIGURE_ID, le64 fid), (TAG_SERIES_INDEX, le32 sidx),
        (TAG_DTYPE, le16 0), (TAG_BLOB_INLINE, le32 cnt ++ raw)] TAG_CHUNK_COUNT = none := by
      simp [lookupTag, TAG_FIGURE_ID, TAG_SERIES_INDEX, TAG_DTYPE, TAG_BLOB_INLINE,
        TAG_CHUNK_COUNT]
    rcases findTag_spec _ TAG_CHUNK_COUNT hgood with ⟨_, h2⟩ | ⟨t, v, A2, B2, h1, _, _⟩
    · exact h2
    · rw [l] at h1
      exact absurd h1 (by simp)
  · have l : lookupTag [(TAG_FIGURE_ID, le64 fid), (TAG_SERIES_INDEX, le32 sidx),
        (TAG_DTYPE, le16 0), (TAG_BLOB_INLINE, le32 cnt ++ raw)] TAG_TOTAL_COUNT = none := by
      simp [lookupTag, TAG_FIGURE_ID, TAG_SERIES_INDEX, TAG_DTYPE, TAG_BLOB_INLINE,
        TAG_TOTAL_COUNT]
    rcases findTag_spec _ TAG_TOTAL_COUNT hgood with ⟨_, h2⟩ | ⟨t, v, A2, B2, h1, _, _⟩
    · exact h2
    · rw [l] at h1
      exact absurd h1 (by simp)

theorem chunks_flatten_take (raw : List Nat) (k : Nat) :
    ((List.range k).map (chunkRange raw)).flatten = raw.take (k * CHUNK_SIZE) := by
  induction k with
  | zero => simp
  | succ k ih =>
    rw [List.range_succ, List.map_append, List.flatten_append, ih]
    have h1 : (List.map (chunkRange raw) [k]).flatten = chunkRange raw k := by simp
    rw [h1]
    show raw.take (k * CHUNK_SIZE) ++ (raw.drop (k * CHUNK_SIZE)).take CHUNK_SIZE
        = raw.take ((k + 1) * CHUNK_SIZE)
    rw [← List.take_add, Nat.succ_mul]

theorem numChunks_mul_ge (len : Nat) : len ≤ numChunks len * CHUNK_SIZE := by
  unfold numChunks CHUNK_SIZE
  omega

theorem chunks_flatten_all (raw : List Nat) :
    ((List.range (numChunks raw.length)).map (chunkRange raw)).flatten = raw := by
  rw [chunks_flatten_take]
  exact List.take_of_length_le (numChunks_mul_ge _)


/-- **C7.** Chunked transfer: above the 128 MiB ceiling the sender
splits the raw bytes into `ceil(size / ceiling)` consecutive ranges of
at most the ceiling and sends one `encode_req_set_data_chunked`
message per range with a 0-based `chunk_index`, `chunk_count` equal to
the number of ranges, and the same `total_count` and figure/series ids
on every chunk, all recoverable from the encoded payload by a TLV
scan; concatenating the ranges in index order reproduces the original
bytes. A 300-million-byte payload yields exactly `ceil(3e8 / 2^27) = 3`
chunks (indices `0,1,2`, `chunk_count = 3`). At or below the ceiling
the non-chunked `encode_req_set_data_raw` path is used and no chunk
tag appears in the payload. -/
theorem C7_chunked_transfer :
    (∀ (fid sidx tc : Nat) (raw : List Nat),
      fid < 18446744073709551616 → sidx < 4294967296 → tc < 4294967296 →
      CHUNK_SIZE < raw.length → raw.length < 4294967296 →
      setDataPayloads fid sidx raw tc = sendChunkedPayloads fid sidx raw tc ∧
      (sendChunkedPayloads fid sidx raw tc).length = numChunks raw.length ∧
      numChunks raw.length = (raw.length + CHUNK_SIZE - 1) / CHUNK_SIZE ∧
      ((List.range (numChunks raw.length)).map (chunkRange raw)).flatten = raw ∧
      (∀ i, i < numChunks raw.length →
        (chunkRange raw i).length ≤ CHUNK_SIZE ∧
        (sendChunkedPayloads fid sidx raw tc).getD i [] =
          encode_req_set_data_chunked fid sidx (chunkRange raw i)
            ((chunkRange raw i).length / 4) i (numChunks raw.length) tc 0 ∧
        (findTag ((sendChunkedPayloads fid sidx raw tc).getD i [])
            TAG_CHUNK_INDEX).map PayloadDecoder.as_u32 = some i ∧
        (findTag ((sendChunkedPayloads fid sidx raw tc).getD i [])
            TAG_CHUNK_COUNT).map PayloadDecoder.as_u32 = some (numChunks raw.length) ∧
        (findTag ((sendChunkedPayloads fid sidx raw tc).getD i [])
            TAG_TOTAL_COUNT).map PayloadDecoder.as_u32 = some tc ∧
        (findTag ((sendChunkedPayloads fid sidx raw tc).getD i [])
            TAG_FIGURE_ID).map PayloadDecoder.as_u64 = some fid ∧
        (findTag ((sendChunkedPayloads fid sidx raw tc).getD i [])
            TAG_SERIES_INDEX).map PayloadDecoder.as_u32 = some sidx ∧
        (findTag ((sendChunkedPayloads fid sidx raw tc).getD i [])
            TAG_BLOB_INLINE).map PayloadDecoder.as_blob =
          some (le32 ((chunkRange raw i).length / 4) ++ chunkRange raw i))) ∧
    (∀ (fid sidx cnt : Nat) (raw : List Nat),
      fid < 18446744073709551616 → sidx < 4294967296 →
      raw.length ≤ CHUNK_SIZE →
      setDataPayloads fid sidx raw cnt = [encode_req_set_data_raw fid sidx raw cnt 0] ∧
      findTag (encode_req_set_data_raw fid sidx raw cnt 0) TAG_CHUNK_INDEX = none ∧
      findTag (encode_req_set_data_raw fid sidx raw cnt 0) TAG_CHUNK_COUNT = none ∧
      findTag (encode_req_set_data_raw fid sidx raw cnt 0) TAG_TOTAL_COUNT = none) ∧
    numChunks 300000000 = 3 := by
  refine ⟨?_, ?_, ?_⟩
  · intro fid sidx tc raw hfid hsidx htc hbig hlen
    have hnum : numChunks raw.length < 4294967296 := by
      unfold numChunks CHUNK_SIZE
      unfold CHUNK_SIZE at hbig
      omega
    refine ⟨?_, ?_, rfl, chunks_flatten_all raw, ?_⟩
    · unfold setDataPayloads
      rw [if_pos hbig]
    · unfold sendChunkedPayloads
      simp
    · intro i hi
      have hchlen : (chunkRange raw i).length ≤ CHUNK_SIZE := by
        unfold chunkRange
        simp [List.length_take]
      have hgetD : (sendChunkedPayloads fid sidx raw tc).getD i [] =
          encode_req_set_data_chunked fid sidx (chunkRange raw i)
            ((chunkRange raw i).length / 4) i (numChunks raw.length) tc 0 := by
        unfold sendChunkedPayloads
        have hlt : i < ((List.range (numChunks raw.length)).map fun i =>
            encode_req_set_data_chunked fid sidx (chunkRange raw i)
              ((chunkRange raw i).length / 4) i (numChunks raw.length) tc 0).length := by
          simpa using hi
        rw [List.getD_eq_getElem _ _ hlt]
        simp
      have hspec := chunk_payload_spec fid sidx (chunkRange raw i)
        ((chunkRange raw i).length / 4) i (numChunks raw.length) tc
        hfid hsidx (by omega) hnum htc
        (by unfold CHUNK_SIZE at hchlen; omega)
      rw [hgetD]
      exact ⟨hchlen, rfl, hspec.1, hspec.2.1, hspec.2.2.1, hspec.2.2.2.1,
        hspec.2.2.2.2.1, hspec.2.2.2.2.2⟩
  · intro fid sidx cnt raw hfid hsidx hsmall
    have hno := raw_payload_no_chunk_tags fid sidx raw cnt hfid hsidx
      (by unfold CHUNK_SIZE at hsmall; omega)
    refine ⟨?_, hno.1, hno.2.1, hno.2.2⟩
    unfold setDataPayloads
    rw [if_neg (by omega)]
  · decide

/-- **C7 witness.** A 300-million-byte input (all-zero bytes) is split
into exactly 3 chunks; the middle chunk's payload carries
`chunk_index = 1` and `chunk_count = 3`; and a small input takes the
non-chunked path with no chunk-index tag. -/
theorem C7_chunked_transfer_witness :
    (sendChunkedPayloads 9 2 (List.replicate 300000000 0) 150000000).length = 3 ∧
    (findTag ((sendChunkedPayloads 9 2 (List.replicate 300000000 0) 150000000).getD 1 [])
        TAG_CHUNK_INDEX).map PayloadDecoder.as_u32 = some 1 ∧
    (findTag ((sendChunkedPayloads 9 2 (List.replicate 300000000 0) 150000000).getD 1 [])
        TAG_CHUNK_COUNT).map PayloadDecoder.as_u32 = some 3 ∧
    setDataPayloads 9 2 [5] 1 = [encode_req_set_data_raw 9 2 [5] 1 0] ∧
    findTag (encode_req_set_data_raw 9 2 [5] 1 0) TAG_CHUNK_INDEX = none := by
  have hlen : (List.replicate 300000000 (0 : Nat)).length = 300000000 :=
    List.length_replicate 300000000 0
  have hnum3 : numChunks (List.replicate 300000000 (0 : Nat)).length = 3 := by
    rw [hlen]
    exact C7_chunked_transfer.2.2
  have h := C7_chunked_transfer.1 9 2 150000000 (List.replicate 300000000 0)
    (by decide) (by decide) (by decide)
    (by rw [hlen]; decide) (by rw [hlen]; decide)
  have h1 := h.2.1
  have hi := h.2.2.2.2 1 (by rw [hnum3]; decide)
  have hsmall := C7_chunked_transfer.2.1 9 2 1 [5] (by decide) (by decide)
    (by decide)
  rw [hnum3] at h1 hi
  exact ⟨h1, hi.2.2.1, hi.2.2.2.1, hsmall.1, hsmall.2.1⟩


/-! ## BlobStore lemmas -/

theorem lookup_filter_ne (l : List (Nat × BlobRef)) (n : Nat) :
    (l.filter fun e => e.1 ≠ n).lookup n = none := by
  induction l with
  | nil => rfl
  | cons e l ih =>
    obtain ⟨k, b⟩ := e
    simp only [List.filter_cons]
    by_cases h : k = n
    · have hp : (decide ((k, b).1 ≠ n)) = false := by simp [h]
      rw [hp]
      simpa using ih
    · have hp : (decide ((k, b).1 ≠ n)) = true := by simp [h]
      rw [hp, if_pos rfl]
      have hq : (n == k) = false := beq_eq_false_iff_ne.mpr fun hnk => h hnk.symm
      simp only [List.lookup, hq]
      exact ih

theorem filter_length_partition (l : List (Nat × BlobRef)) (p : Nat × BlobRef → Bool) :
    (l.filter p).length + (l.filter fun e => !(p e)).length = l.length := by
  induction l with
  | nil => rfl
  | cons e l ih =>
    cases h : p e <;> simp [List.filter_cons, h] <;> omega

/-- **C9.** Blob release is idempotent: releasing the same name twice
leaves the store exactly as one release does and performs no second
OS unlink; releasing a name the store does not track is a silent no-op
(no exception — the model is total — and no state change, no unlink);
and `BlobRef.release` on an already-released ref does nothing. -/
theorem C9_release_idempotent :
    (∀ (s : BlobStore) (name : Nat),
      (s.release_blob name).1.release_blob name = ((s.release_blob name).1, false)) ∧
    (∀ (s : BlobStore) (name : Nat), s.blobs.lookup name = none →
      s.release_blob name = (s, false)) ∧
    (∀ r : BlobRef, r.released = true → r.release = (r, false)) ∧
    (∀ r : BlobRef, (r.release).1.release = ((r.release).1, false)) := by
  refine ⟨?_, ?_, ?_, ?_⟩
  · intro s name
    cases h : s.blobs.lookup name with
    | none =>
      have h1 : s.release_blob name = (s, false) := by
        unfold BlobStore.release_blob
        rw [h]
      rw [h1]
      exact h1
    | some ref =>
      have h1 : s.release_blob name =
          (⟨s.blobs.filter fun e => e.1 ≠ name⟩, (ref.release).2) := by
        unfold BlobStore.release_blob
        rw [h]
      have h2 : (⟨s.blobs.filter fun e => e.1 ≠ name⟩ : BlobStore).release_blob name
          = (⟨s.blobs.filter fun e => e.1 ≠ name⟩, false) := by
        unfold BlobStore.release_blob
        rw [lookup_filter_ne]
      rw [h1]
      exact h2
  · intro s name h
    unfold BlobStore.release_blob
    rw [h]
  · intro r h
    unfold BlobRef.release
    rw [if_pos h]
  · intro r
    unfold BlobRef.release
    by_cases h : r.released = true
    · rw [if_pos h, if_pos h]
    · rw [if_neg h]
      show (if true = true then _ else _) = _
      rw [if_pos rfl]

/-- **C9 witness.** One tracked blob released twice (the second call
is a no-op with no unlink), a release of an untracked name on the
empty store, and a release of an already-released ref. -/
theorem C9_release_idempotent_witness :
    ((BlobStore.create_blob BlobStore.empty 1 10 0).release_blob 1).1.release_blob 1
      = (((BlobStore.create_blob BlobStore.empty 1 10 0).release_blob 1).1, false) ∧
    BlobStore.empty.release_blob 5 = (BlobStore.empty, false) ∧
    BlobRef.release ⟨1, 10, 0, false, true⟩ = (⟨1, 10, 0, false, true⟩, false) :=
  ⟨C9_release_idempotent.1 (BlobStore.create_blob BlobStore.empty 1 10 0) 1,
   C9_release_idempotent.2.1 BlobStore.empty 5 rfl,
   C9_release_idempotent.2.2.1 ⟨1, 10, 0, false, true⟩ rfl⟩

/-- **C8.** `cleanup_expired` removes exactly the tracked blobs whose
age exceeds the 60-second TTL and returns their count (so reclaimed
count plus remaining `active_count` is the original count), leaving
unexpired blobs tracked; in particular a store holding one blob whose
recorded creation time lies more than the TTL in the past reports
1 reclaimed and `active_count = 0` afterwards. -/
theorem C8_cleanup_expired :
    (∀ (s : BlobStore) (now : Int),
      (∀ e, e ∈ ((s.cleanup_expired now).1).blobs ↔
        e ∈ s.blobs ∧ e.2.is_expired now = false) ∧
      (s.cleanup_expired now).2 + ((s.cleanup_expired now).1).active_count
        = s.active_count ∧
      (s.cleanup_expired now).2
        = (s.blobs.filter fun e => e.2.is_expired now).length) ∧
    (∀ (name size : Nat) (t now : Int), BLOB_TTL < now - t →
      ((BlobStore.create_blob BlobStore.empty name size t).cleanup_expired now).2 = 1 ∧
      (((BlobStore.create_blob BlobStore.empty name size t).cleanup_expired
          now).1).active_count = 0) := by
  constructor
  · intro s now
    refine ⟨?_, ?_, rfl⟩
    · intro e
      show e ∈ s.blobs.filter (fun e => !e.2.is_expired now) ↔ _
      rw [List.mem_filter]
      simp
    · show (s.blobs.filter fun e => e.2.is_expired now).length +
        (s.blobs.filter fun e => !e.2.is_expired now).length = s.blobs.length
      exact filter_length_partition s.blobs fun e => e.2.is_expired now
  · intro name size t now h
    have hexp : (BlobRef.mk name size t true false).is_expired now = true := by
      simp only [BlobRef.is_expired, decide_eq_true_eq]
      exact h
    constructor
    · show ((BlobStore.create_blob BlobStore.empty name size t).blobs.filter
        fun e => e.2.is_expired now).length = 1
      simp [BlobStore.create_blob, BlobStore.empty, List.filter_cons, hexp]
    · show ((BlobStore.create_blob BlobStore.empty name size t).blobs.filter
        fun e => !e.2.is_expired now).length = 0
      simp [BlobStore.create_blob, BlobStore.empty, List.filter_cons, hexp]

/-- **C8 witness.** One blob created at monotonic time 0 and cleaned
up at time 61 (one second past the 60-second TTL): exactly one blob is
reclaimed and none remain tracked. -/
theorem C8_cleanup_expired_witness :
    ((BlobStore.create_blob BlobStore.empty 3 10 0).cleanup_expired 61).2 = 1 ∧
    (((BlobStore.create_blob BlobStore.empty 3 10 0).cleanup_expired
        61).1).active_count = 0 :=
  C8_cleanup_expired.2 3 10 0 61 (by decide)


/-- **C1.** Request/response correlation: when the wire delivers a
run of messages unrelated to the fresh request id (header
`request_id` differs, and they are not a `RESP_ERR`/`RESP_OK` whose
embedded id matches) followed by the correctly-tagged response, the
`Session._request` loop returns exactly that response and has passed
each preceding unrelated message to `_handle_event` exactly once, in
order; and when a `RESP_ERR` whose embedded request id equals the
fresh id or zero arrives first, the loop raises `BackendError` with
the embedded numeric code and message, again after dispatching each
preceding unrelated message exactly once. -/
theorem C1_request_correlation (reqId : Nat) (pre : List Msg) (m : Msg) (rest : List Msg)
    (hpre : ∀ u ∈ pre, unrelated reqId u) :
    (matchesResp reqId m → ¬ matchesErr reqId m →
      runRequest reqId (pre ++ m :: rest) = .response m pre) ∧
    (matchesErr reqId m →
      runRequest reqId (pre ++ m :: rest) =
        .backendError (decode_resp_err m.payload).2.1 (decode_resp_err m.payload).2.2 pre) := by
  unfold matchesErr matchesResp unrelated at *
  induction pre with
  | nil =>
    constructor
    · intro hresp herr
      show runRequest reqId (m :: rest) = .response m []
      rw [runRequest, if_neg herr]
      rcases Decidable.em (m.requestId = reqId) with h2 | h2
      · rw [if_pos h2]
      · rw [if_neg h2, if_pos (hresp.resolve_left h2)]
    · intro herr
      show runRequest reqId (m :: rest) = _
      rw [runRequest, if_pos herr]
  | cons u pre ih =>
    have hu := hpre u (List.mem_cons_self u pre)
    have hpre2 : ∀ x ∈ pre, _ := fun x hx => hpre x (List.mem_cons_of_mem u hx)
    have hh : ¬ (u.requestId = reqId) := fun hc => hu.2 (Or.inl hc)
    have hok : ¬ (u.msgType = RESP_OK ∧ decode_resp_ok u.payload = reqId) :=
      fun hc => hu.2 (Or.inr hc)
    have hu1 : ¬ (u.msgType = RESP_ERR ∧
        ((decode_resp_err u.payload).1 = reqId ∨ (decode_resp_err u.payload).1 = 0)) := hu.1
    have step : runRequest reqId (u :: (pre ++ m :: rest)) =
        (runRequest reqId (pre ++ m :: rest)).withEvent u := by
      rw [runRequest, if_neg hu1, if_neg hh, if_neg hok]
    constructor
    · intro hresp herr
      show runRequest reqId (u :: (pre ++ m :: rest)) = _
      rw [step, (ih hpre2).1 hresp herr]
      rfl
    · intro herr
      show runRequest reqId (u :: (pre ++ m :: rest)) = _
      rw [step, (ih hpre2).2 herr]
      rfl

/-- **C1 witness.** With fresh request id 1, a mock wire delivering an
unrelated `ANIM_TICK` event (header request id 0) and then the tagged
response: the response is returned and the event was handled exactly
once. With the same event followed by a `RESP_ERR` whose empty payload
decodes to embedded request id 0 ("unattributable"): a backend error
is raised, again after one event dispatch. -/
theorem C1_request_correlation_witness :
    runRequest 1 [⟨ANIM_TICK, 0, []⟩, ⟨0x0540, 1, []⟩]
      = .response ⟨0x0540, 1, []⟩ [⟨ANIM_TICK, 0, []⟩] ∧
    runRequest 1 [⟨ANIM_TICK, 0, []⟩, ⟨RESP_ERR, 0, []⟩]
      = .backendError 0 [] [⟨ANIM_TICK, 0, []⟩] := by
  constructor
  · exact (C1_request_correlation 1 [⟨ANIM_TICK, 0, []⟩] ⟨0x0540, 1, []⟩ []
      (by decide)).1 (by decide) (by decide)
  · have h := (C1_request_correlation 1 [⟨ANIM_TICK, 0, []⟩] ⟨RESP_ERR, 0, []⟩ []
      (by decide)).2 (by decide)
    exact h.trans (by decide)


/-- **C6.** `Transport.recv` returns `None` exactly when zero bytes
were available at the very start of the read (clean close); a stream
that ends after at least one header byte raises a connection error;
40 header bytes failing magic validation raise a protocol error; a
decoded `payload_len` above the 256 MiB maximum is rejected by the
Transport (not the header decoder) with a protocol error; a stream
that ends during the payload raises a connection error; and otherwise
`recv` returns the decoded header together with exactly `payload_len`
payload bytes. -/
theorem C6_transport_recv :
    (∀ stream : List Nat, recv stream = .ok none ↔ stream = []) ∧
    (∀ stream : List Nat, 1 ≤ stream.length → stream.length < 40 →
      recv stream = .error .connectionError) ∧
    (∀ stream : List Nat, 40 ≤ stream.length → decode_header (stream.take 40) = none →
      recv stream = .error .protocolError) ∧
    (∀ (stream : List Nat) (hdr : Header), 40 ≤ stream.length →
      decode_header (stream.take 40) = some hdr → MAX_PAYLOAD_SIZE < hdr.payload_len →
      recv stream = .error .protocolError) ∧
    (∀ (stream : List Nat) (hdr : Header), 40 ≤ stream.length →
      decode_header (stream.take 40) = some hdr → hdr.payload_len ≤ MAX_PAYLOAD_SIZE →
      hdr.payload_len ≤ stream.length - 40 →
      recv stream = .ok (some (hdr, (stream.drop 40).take hdr.payload_len,
        (stream.drop 40).drop hdr.payload_len)) ∧
      ((stream.drop 40).take hdr.payload_len).length = hdr.payload_len) ∧
    (∀ (stream : List Nat) (hdr : Header), 40 ≤ stream.length →
      decode_header (stream.take 40) = some hdr → hdr.payload_len ≤ MAX_PAYLOAD_SIZE →
      stream.length - 40 < hdr.payload_len →
      recv stream = .error .connectionError) := by
  have hra : ∀ stream : List Nat, 40 ≤ stream.length →
      recvall stream HEADER_SIZE = .ok (some (stream.take 40, stream.drop 40)) := by
    intro stream h40
    unfold recvall HEADER_SIZE
    rw [if_pos h40]
  refine ⟨?_, ?_, ?_, ?_, ?_, ?_⟩
  · intro stream
    constructor
    · intro h
      by_cases h40 : 40 ≤ stream.length
      · exfalso
        unfold recv at h
        rw [hra stream h40] at h
        simp only [] at h
        cases hd : decode_header (stream.take 40) with
        | none =>
          rw [hd] at h
          simp at h
        | some hdr =>
          rw [hd] at h
          simp only [] at h
          by_cases hmax : MAX_PAYLOAD_SIZE < hdr.payload_len
          · rw [if_pos hmax] at h
            simp at h
          · rw [if_neg hmax] at h
            by_cases hz : 0 < hdr.payload_len
            · rw [if_pos hz] at h
              unfold recvall at h
              by_cases hr : hdr.payload_len ≤ (stream.drop 40).length
              · rw [if_pos hr] at h
                simp at h
              · rw [if_neg hr] at h
                by_cases he : (stream.drop 40).length = 0
                · rw [if_pos he] at h
                  simp at h
                · rw [if_neg he] at h
                  simp at h
            · rw [if_neg hz] at h
              simp at h
      · by_cases h0 : stream.length = 0
        · exact List.length_eq_zero.mp h0
        · exfalso
          have hra2 : recvall stream HEADER_SIZE = .error .connectionError := by
            unfold recvall HEADER_SIZE
            rw [if_neg (by omega), if_neg h0]
          unfold recv at h
          rw [hra2] at h
          simp at h
    · intro h
      subst h
      rfl
  · intro stream h1 h40
    have hra2 : recvall stream HEADER_SIZE = .error .connectionError := by
      unfold recvall HEADER_SIZE
      rw [if_neg (by omega), if_neg (by omega)]
    unfold recv
    rw [hra2]
  · intro stream h40 hd
    unfold recv
    rw [hra stream h40]
    simp only []
    rw [hd]
  · intro stream hdr h40 hd hmax
    unfold recv
    rw [hra stream h40]
    simp only []
    rw [hd]
    simp only []
    rw [if_pos hmax]
  · intro stream hdr h40 hd hmax hle
    have hr : hdr.payload_len ≤ (stream.drop 40).length := by
      rw [List.length_drop]
      omega
    constructor
    · unfold recv
      rw [hra stream h40]
      simp only []
      rw [hd]
      simp only []
      rw [if_neg (by omega)]
      by_cases hz : 0 < hdr.payload_len
      · have hrb : recvall (stream.drop 40) hdr.payload_len =
            .ok (some ((stream.drop 40).take hdr.payload_len,
              (stream.drop 40).drop hdr.payload_len)) := by
          unfold recvall
          rw [if_pos hr]
        rw [if_pos hz, hrb]
      · rw [if_neg hz]
        have h0 : hdr.payload_len = 0 := by omega
        rw [h0]
        rfl
    · rw [List.length_take, List.length_drop]
      omega
  · intro stream hdr h40 hd hmax hgt
    have hz : 0 < hdr.payload_len := by omega
    have hr : ¬ (hdr.payload_len ≤ (stream.drop 40).length) := by
      rw [List.length_drop]
      omega
    unfold recv
    rw [hra stream h40]
    simp only []
    rw [hd]
    simp only []
    rw [if_neg (by omega), if_pos hz]
    by_cases he : (stream.drop 40).length = 0
    · have hrb : recvall (stream.drop 40) hdr.payload_len = .ok none := by
        unfold recvall
        rw [if_neg hr, if_pos he]
      rw [hrb]
    · have hrb : recvall (stream.drop 40) hdr.payload_len = .error .connectionError := by
        unfold recvall
        rw [if_neg hr, if_neg he]
      rw [hrb]

/-- **C6 witness.** Concrete streams: the empty stream (clean close),
a 1-byte stream (closed mid-header), a 40-byte frame with a corrupt
first magic byte (protocol error), a valid header declaring a
payload above 256 MiB (protocol error raised by the transport even
though the header decoded fine), a complete 2-byte-payload frame
(returned with exactly those 2 bytes), and the same frame missing its
last payload byte (closed during payload). -/
theorem C6_transport_recv_witness :
    recv [] = .ok none ∧
    recv [0x53] = .error .connectionError ∧
    recv (0x54 :: List.replicate 39 0) = .error .protocolError ∧
    recv (encode_header 1 268435457 0 0 0 0) = .error .protocolError ∧
    recv (encode_header 1 2 0 0 0 0 ++ [7, 8])
      = .ok (some (⟨1, 2, 0, 0, 0, 0⟩, [7, 8], [])) ∧
    recv (encode_header 1 2 0 0 0 0 ++ [7]) = .error .connectionError := by
  refine ⟨?_, ?_, ?_, ?_, ?_, ?_⟩
  · exact (C6_transport_recv.1 []).mpr rfl
  · exact C6_transport_recv.2.1 [0x53] (by decide) (by decide)
  · exact C6_transport_recv.2.2.1 (0x54 :: List.replicate 39 0) (by decide) (by decide)
  · exact C6_transport_recv.2.2.2.1 (encode_header 1 268435457 0 0 0 0)
      ⟨1, 268435457, 0, 0, 0, 0⟩ (by decide) (by decide) (by decide)
  · have h := (C6_transport_recv.2.2.2.2.1 (encode_header 1 2 0 0 0 0 ++ [7, 8])
      ⟨1, 2, 0, 0, 0, 0⟩ (by decide) (by decide) (by decide) (by decide)).1
    exact h.trans (by rfl)
  · exact C6_transport_recv.2.2.2.2.2 (encode_header 1 2 0 0 0 0 ++ [7])
      ⟨1, 2, 0, 0, 0, 0⟩ (by decide) (by decide) (by decide) (by decide)

end Spectra
